import Mathlib

/-!
# Cria.exe — order lifecycle and stock reservation

A shallow embedding of the order model (`src/models/Order.js`), the product
model (`src/models/Product.js`), the request validation helpers
(`src/utils/validation.js`) and the order / product controllers
(`src/controllers/orderController.js`, `src/controllers/productController.js`).

Conventions of the embedding:

* identifiers (document ids, user ids) are opaque non-empty strings in the
  source; here they are natural numbers, and a nullable identifier is an
  `Option Id` whose truthiness is `isSome`;
* money is an exact rational, quantities and stock are integers;
* the fields of a request body are typed (a quantity or a stock is an integer number, a
  price a rational number), and a coercion of the source that leaves such a value as it
  is (`parseInt` of an integer, `parseFloat` of a number) is not written out; where the
  source tests a field as received and stores a coerced value, the controller is also
  given on the received value (`JsValue`, `updateStockRaw`);
* role and status are strings, as in the source;
* every `new Date()` of one request is the request time `now`;
* the document store is the pair of key-indexed collections `products` and
  `orders`; `update` merges into an existing document and is a no-op on a
  missing one, `add` stores the document under the generated id;
* a controller is a function from the store and the request to the response
  and the store left behind (also when the controller ends in its `catch`).
-/

namespace Cria

/-- Document and user identifiers. -/
abbrev Id := Nat

/-- Timestamps. -/
abbrev Time := Nat

/-! ## Order model (`src/models/Order.js`) -/

/-- One line of an order: the product reference and the captured snapshot. -/
structure OrderItem where
  productId : Id
  productName : String
  price : ℚ
  quantity : Int
  unit : String
  subtotal : ℚ
  deriving DecidableEq

/-- Delivery address; only `street` is inspected by the code. -/
structure Address where
  street : Option String
  neighborhood : Option String
  city : Option String
  state : Option String
  zipCode : Option String
  deriving DecidableEq

/-- The order document. -/
structure Order where
  consumerId : Id
  producerId : Id
  logisticsId : Option Id
  items : List OrderItem
  totalAmount : ℚ
  status : String
  deliveryAddress : Address
  deliveryFee : ℚ
  notes : String
  estimatedDeliveryTime : Option Time
  createdAt : Time
  updatedAt : Time
  deliveredAt : Option Time
  deriving DecidableEq

/-- The list `validStatuses` of `Order.updateStatus`. -/
def validStatuses : List String :=
  ["pending", "confirmed", "preparing", "ready", "in_delivery", "delivered", "cancelled"]

/-- In-memory part of `Order.updateStatus(newStatus)`: throws on a status outside
`validStatuses`, else sets `status`, `updatedAt` and, for `delivered`, `deliveredAt`. -/
def Order.updateStatus (o : Order) (newStatus : String) (now : Time) : Except String Order :=
  if ¬ (newStatus ∈ validStatuses) then
    .error "Erro ao atualizar status: Status inválido"
  else
    let o1 := { o with status := newStatus, updatedAt := now }
    .ok (if newStatus = "delivered" then { o1 with deliveredAt := some now } else o1)

/-- In-memory part of `Order.assignLogistics(logisticsId)`. -/
def Order.assignLogistics (o : Order) (logisticsId : Id) (now : Time) : Order :=
  { o with logisticsId := some logisticsId, updatedAt := now }

/-- The sum `itemsTotal` accumulated by `calculateTotal`. -/
def itemsTotal (items : List OrderItem) : ℚ :=
  items.foldl (fun acc item => acc + item.price * (item.quantity : ℚ)) 0

/-- Method `Order.calculateTotal()`. -/
def Order.calculateTotal (o : Order) : Order :=
  { o with totalAmount := itemsTotal o.items + o.deliveryFee }

/-- Method `Order.addItem(productId, productName, price, quantity, unit)`. -/
def Order.addItem (o : Order) (productId : Id) (productName : String) (price : ℚ)
    (quantity : Int) (unit : String) : Order :=
  match o.items.findIdx? (fun item => item.productId == productId) with
  | some i =>
    Order.calculateTotal
      { o with items := o.items.modify (fun it => { it with quantity := it.quantity + quantity }) i }
  | none =>
    Order.calculateTotal
      { o with items := o.items ++
          [{ productId := productId, productName := productName, price := price,
             quantity := quantity, unit := unit, subtotal := price * (quantity : ℚ) }] }

/-- Method `Order.removeItem(productId)`. -/
def Order.removeItem (o : Order) (productId : Id) : Order :=
  Order.calculateTotal
    { o with items := o.items.filter (fun item => item.productId != productId) }

/-- Method `Order.updateItemQuantity(productId, newQuantity)`. -/
def Order.updateItemQuantity (o : Order) (productId : Id) (newQuantity : Int) :
    Except String Order :=
  match o.items.findIdx? (fun item => item.productId == productId) with
  | some i =>
    if newQuantity ≤ 0 then
      .ok (o.removeItem productId)
    else
      let items1 := o.items.modify
        (fun it => { it with quantity := newQuantity, subtotal := it.price * (newQuantity : ℚ) }) i
      .ok (Order.calculateTotal { o with items := items1 })
  | none => .error "Erro ao atualizar quantidade: Item não encontrado no pedido"

/-- Guard of `Order.cancel()` followed by `updateStatus('cancelled')`. -/
def Order.cancel (o : Order) (now : Time) : Except String Order :=
  if o.status = "delivered" then
    .error "Erro ao cancelar pedido: Não é possível cancelar um pedido já entregue"
  else if o.status = "cancelled" then
    .error "Erro ao cancelar pedido: Pedido já está cancelado"
  else
    match o.updateStatus "cancelled" now with
    | .ok o1 => .ok o1
    | .error e => .error ("Erro ao cancelar pedido: " ++ e)

/-! ## Product model (`src/models/Product.js`) and the document store -/

/-- The product document (its id is the key it is stored under). -/
structure Product where
  name : String
  description : String
  price : ℚ
  category : String
  imageUrl : String
  stock : Int
  unit : String
  producerId : Id
  isAvailable : Bool
  createdAt : Time
  updatedAt : Time
  deriving DecidableEq

/-- The two collections of the document store. -/
structure Store where
  products : Id → Option Product
  orders : Id → Option Order

/-- Store lookup `Product.findById(id)`. -/
def Product.findById (s : Store) (id : Id) : Option Product :=
  s.products id

/-- Store lookup `Order.findById(id)`. -/
def Order.findById (s : Store) (id : Id) : Option Order :=
  s.orders id

/-- Store write `db.collection('products').doc(id).update(data)`: merges the written
fields into the stored document when it exists. -/
def Store.updateProductDoc (s : Store) (id : Id) (merge : Product → Product) : Store :=
  { s with products := fun k => if k = id then (s.products k).map merge else s.products k }

/-- Store write `db.collection('orders').doc(id).update(data)`. -/
def Store.updateOrderDoc (s : Store) (id : Id) (merge : Order → Order) : Store :=
  { s with orders := fun k => if k = id then (s.orders k).map merge else s.orders k }

/-- Store write `db.collection('orders').add(data)` with the generated id `id`. -/
def Store.addOrderDoc (s : Store) (id : Id) (o : Order) : Store :=
  { s with orders := fun k => if k = id then some o else s.orders k }

/-- Method `Product.updateStock(quantity)` on the object `p` read under `id`. -/
def Product.updateStock (_p : Product) (s : Store) (id : Id) (quantity : Int) (now : Time) :
    Store :=
  s.updateProductDoc id (fun d => { d with stock := quantity, updatedAt := now })

/-- Method `Product.reduceStock(quantity)` on the object `p` read under `id`: throws
when the object's stock is below the quantity, else writes the decremented stock. -/
def Product.reduceStock (p : Product) (s : Store) (id : Id) (quantity : Int) (now : Time) :
    Except String Store :=
  if p.stock < quantity then
    .error "Erro ao reduzir estoque: Estoque insuficiente"
  else
    .ok (s.updateProductDoc id (fun d => { d with stock := p.stock - quantity, updatedAt := now }))

/-- Method `Product.increaseStock(quantity)` on the object `p` read under `id`. -/
def Product.increaseStock (p : Product) (s : Store) (id : Id) (quantity : Int) (now : Time) :
    Store :=
  s.updateProductDoc id (fun d => { d with stock := p.stock + quantity, updatedAt := now })

/-! ## Request validation (`src/utils/validation.js`) -/

/-- One entry of the `items` array of an order request. -/
structure ItemInput where
  productId : Option Id
  quantity : Option Int
  price : Option ℚ
  deriving DecidableEq

/-- The object `orderData` handed to `validateOrderData`. -/
structure OrderData where
  consumerId : Option Id
  producerId : Option Id
  items : Option (List ItemInput)
  deliveryAddress : Option Address
  deliveryFee : ℚ
  notes : Option String

/-- The messages `validateOrderData` pushes; an item message carries `index + 1`. -/
inductive OrderDataError where
  | consumerIdRequired
  | producerIdRequired
  | itemsRequired
  | itemProductIdRequired (n : Nat)
  | itemQuantityPositive (n : Nat)
  | itemPricePositive (n : Nat)
  | addressRequired
  deriving DecidableEq

/-- The result object of a validator. -/
structure Validation where
  isValid : Bool
  errors : List OrderDataError
  deriving DecidableEq

/-- The three checks of the `forEach` callback of `validateOrderData` on one item. -/
def itemErrors (index : Nat) (item : ItemInput) : List OrderDataError :=
  (if item.productId.isNone then [OrderDataError.itemProductIdRequired (index + 1)] else []) ++
  (if (match item.quantity with
        | none => true
        | some q => decide (q ≤ 0)) then [OrderDataError.itemQuantityPositive (index + 1)] else []) ++
  (if (match item.price with
        | none => true
        | some c => decide (c ≤ 0)) then [OrderDataError.itemPricePositive (index + 1)] else [])

/-- The `forEach` over the items, from position `index` on. -/
def itemsErrors : Nat → List ItemInput → List OrderDataError
  | _, [] => []
  | index, item :: rest => itemErrors index item ++ itemsErrors (index + 1) rest

/-- Function `validateOrderData(orderData)`. -/
def validateOrderData (orderData : OrderData) : Validation :=
  let errors : List OrderDataError :=
    (if orderData.consumerId.isNone then [OrderDataError.consumerIdRequired] else []) ++
    (if orderData.producerId.isNone then [OrderDataError.producerIdRequired] else []) ++
    (match orderData.items with
      | none => [OrderDataError.itemsRequired]
      | some [] => [OrderDataError.itemsRequired]
      | some (_ :: _) => []) ++
    (match orderData.items with
      | none => []
      | some items => itemsErrors 0 items) ++
    (match orderData.deliveryAddress with
      | none => [OrderDataError.addressRequired]
      | some a =>
        match a.street with
        | none => [OrderDataError.addressRequired]
        | some st => if st = "" then [OrderDataError.addressRequired] else [])
  { isValid := decide (errors.length = 0), errors := errors }

/-! ## Order controller (`src/controllers/orderController.js`) -/

/-- The authenticated caller `req.user`. -/
structure Actor where
  id : Id
  role : String
  deriving DecidableEq

/-- The messages of the responses of the controllers. -/
inductive Msg where
  /-- Message 'Dados inválidos', with the validation errors. -/
  | invalidData (errors : List OrderDataError)
  /-- Message 'Produto <id> não encontrado'. -/
  | productIdNotFound (productId : Id)
  /-- Message 'Produto <name> não está disponível'. -/
  | productUnavailable (name : String)
  /-- Message 'Estoque insuficiente para <name>. Disponível: <stock>'. -/
  | insufficientStock (name : String) (available : Int)
  /-- Message 'Produto <name> não pertence ao produtor selecionado'. -/
  | wrongProducer (name : String)
  /-- Message 'Pedido criado com sucesso'. -/
  | orderCreated (orderId : Id)
  /-- Message 'Erro interno do servidor', with `error.message`. -/
  | internalError (detail : String)
  /-- Message 'Status é obrigatório'. -/
  | statusRequired
  /-- Message 'Pedido não encontrado'. -/
  | orderNotFound
  /-- Message 'Você não tem permissão para alterar este status'. -/
  | statusForbidden
  /-- Message 'Status do pedido atualizado com sucesso'. -/
  | statusUpdated (orderId : Id) (newStatus : String)
  /-- Message 'Pedido deve estar com status "ready" para ser atribuído'. -/
  | notReady
  /-- Message 'Pedido já tem logística atribuída'. -/
  | alreadyAssigned
  /-- Message 'Logística atribuída ao pedido com sucesso'. -/
  | logisticsAssigned (orderId : Id) (logisticsId : Id)
  /-- Message 'Não é possível cancelar este pedido no status atual'. -/
  | cannotCancel
  /-- Message 'Pedido cancelado com sucesso'. -/
  | orderCancelled
  /-- Message 'Estoque deve ser um número não negativo'. -/
  | stockNotNegative
  /-- Message 'Produto não encontrado'. -/
  | productNotFound
  /-- Message 'Acesso negado. Você só pode editar seus próprios produtos.' -/
  | productAccessDenied
  /-- Message 'Estoque atualizado com sucesso'. -/
  | stockUpdated (productId : Id) (newStock : Int)
  /-- Message 'Dados inválidos' of the product controller, with the number of errors. -/
  | invalidProductData (errors : Nat)
  /-- Message 'Produto atualizado com sucesso'. -/
  | productUpdated
  /-- Message 'Produto disponibilizado com sucesso' or 'Produto indisponibilizado com
  sucesso', with the product id and the new availability. -/
  | availabilityChanged (productId : Id) (isAvailable : Bool)
  /-- Message 'Acesso negado. Você só pode deletar seus próprios produtos.' -/
  | productDeleteDenied
  /-- Message 'Produto deletado com sucesso'. -/
  | productDeleted
  /-- Message 'Acesso negado a este pedido'. -/
  | orderAccessDenied
  deriving DecidableEq

/-- An HTTP response: status code and message. -/
structure Response where
  code : Nat
  msg : Msg
  deriving DecidableEq

/-- The JSON body of `POST /orders`. -/
structure OrderBody where
  producerId : Option Id
  items : Option (List ItemInput)
  deliveryAddress : Option Address
  deliveryFee : Option ℚ
  notes : Option String

/-- The empty address object of the `Order` constructor. -/
def emptyAddress : Address :=
  { street := none, neighborhood := none, city := none, state := none, zipCode := none }

/-- First loop of `createOrder`: looks every line up and answers the error of the
first failing check, else the processed items in request order. A line without a
product id or quantity cannot reach the loop after a successful validation. -/
def checkItems (s : Store) (producerId : Id) : List ItemInput → Except Response (List OrderItem)
  | [] => .ok []
  | item :: rest =>
    match item.productId, item.quantity with
    | some pid, some q =>
      match Product.findById s pid with
      | none => .error ⟨404, .productIdNotFound pid⟩
      | some product =>
        if product.isAvailable = false then
          .error ⟨400, .productUnavailable product.name⟩
        else if product.stock < q then
          .error ⟨400, .insufficientStock product.name product.stock⟩
        else if product.producerId ≠ producerId then
          .error ⟨400, .wrongProducer product.name⟩
        else
          match checkItems s producerId rest with
          | .error r => .error r
          | .ok processed =>
            .ok ({ productId := pid, productName := product.name, price := product.price,
                   quantity := q, unit := product.unit,
                   subtotal := product.price * (q : ℚ) } :: processed)
    | _, _ => .error ⟨500, .internalError "item sem produto ou quantidade"⟩

/-- Second loop of `createOrder`: re-reads each product and reduces its stock; a
missing product or a failing `reduceStock` throws, leaving the store as it then is. -/
def reserveItems (s : Store) (now : Time) : List OrderItem → Store × Option String
  | [] => (s, none)
  | item :: rest =>
    match Product.findById s item.productId with
    | none => (s, some "Cannot read properties of null")
    | some product =>
      match product.reduceStock s item.productId item.quantity now with
      | .error e => (s, some e)
      | .ok s1 => reserveItems s1 now rest

/-- The stock-return loop of `updateOrderStatus` and `cancelOrder`. -/
def releaseItems (s : Store) (now : Time) : List OrderItem → Store
  | [] => s
  | item :: rest =>
    match Product.findById s item.productId with
    | some product =>
      releaseItems (product.increaseStock s item.productId item.quantity now) now rest
    | none => releaseItems s now rest

/-- The object `new Order({...})` that `createOrder` builds from the processed items:
status pending, total the accumulated subtotals plus the delivery fee. -/
def newOrder (now : Time) (user : Actor) (producerId : Id) (body : OrderBody)
    (processedItems : List OrderItem) : Order :=
  { consumerId := user.id, producerId := producerId, logisticsId := none,
    items := processedItems,
    totalAmount :=
      processedItems.foldl (fun acc item => acc + item.subtotal) 0 + body.deliveryFee.getD 0,
    status := "pending", deliveryAddress := body.deliveryAddress.getD emptyAddress,
    deliveryFee := body.deliveryFee.getD 0, notes := body.notes.getD "",
    estimatedDeliveryTime := none, createdAt := now, updatedAt := now, deliveredAt := none }

/-- The object `orderData` that `createOrder` validates. -/
def orderDataOf (user : Actor) (body : OrderBody) : OrderData :=
  { consumerId := some user.id, producerId := body.producerId, items := body.items,
    deliveryAddress := body.deliveryAddress, deliveryFee := body.deliveryFee.getD 0,
    notes := body.notes }

/-- Controller `createOrder`; `newId` is the id the store generates for the document.
After a successful validation the body has a producer id and an item array. -/
def createOrder (s : Store) (now : Time) (newId : Id) (user : Actor) (body : OrderBody) :
    Response × Store :=
  let validation := validateOrderData (orderDataOf user body)
  if validation.isValid = false then
    (⟨400, .invalidData validation.errors⟩, s)
  else
    match body.producerId, body.items with
    | some producerId, some items =>
      match checkItems s producerId items with
      | .error r => (r, s)
      | .ok processedItems =>
        let s1 := s.addOrderDoc newId (newOrder now user producerId body processedItems)
        match reserveItems s1 now processedItems with
        | (s2, some e) => (⟨500, .internalError e⟩, s2)
        | (s2, none) => (⟨201, .orderCreated newId⟩, s2)
    | _, _ => (⟨500, .internalError "pedido sem produtor ou itens"⟩, s)

/-- Store write of `Order.updateStatus`: `update({status, updatedAt, deliveredAt})`
with the values of the in-memory order `o`. -/
def Order.writeStatus (o : Order) (s : Store) (id : Id) : Store :=
  s.updateOrderDoc id
    (fun d => { d with status := o.status, updatedAt := o.updatedAt, deliveredAt := o.deliveredAt })

/-- Store write of `Order.assignLogistics`: `update({logisticsId, updatedAt})`. -/
def Order.writeLogistics (o : Order) (s : Store) (id : Id) : Store :=
  s.updateOrderDoc id (fun d => { d with logisticsId := o.logisticsId, updatedAt := o.updatedAt })

/-- The permission switch of `updateOrderStatus` (the variable `canUpdate`). -/
def canUpdate (user : Actor) (order : Order) (status : String) : Bool :=
  if user.role = "producer" then
    if order.producerId = user.id then
      decide (status ∈ ["confirmed", "preparing", "ready"])
    else false
  else if user.role = "logistics" then
    if order.logisticsId = some user.id then
      decide (status ∈ ["in_delivery", "delivered"])
    else false
  else if user.role = "consumer" then
    if order.consumerId = user.id then
      decide (status = "cancelled" ∧ order.status = "pending")
    else false
  else false

/-- Controller `updateOrderStatus`; `status` is the field of the request body. -/
def updateOrderStatus (s : Store) (now : Time) (user : Actor) (id : Id)
    (status : Option String) : Response × Store :=
  match status with
  | none => (⟨400, .statusRequired⟩, s)
  | some status =>
    if status = "" then
      (⟨400, .statusRequired⟩, s)
    else
      match Order.findById s id with
      | none => (⟨404, .orderNotFound⟩, s)
      | some order =>
        if canUpdate user order status = false then
          (⟨403, .statusForbidden⟩, s)
        else
          match order.updateStatus status now with
          | .error e => (⟨500, .internalError e⟩, s)
          | .ok order1 =>
            let s1 := order1.writeStatus s id
            let s2 := if status = "cancelled" then releaseItems s1 now order1.items else s1
            (⟨200, .statusUpdated id status⟩, s2)

/-- Controller `assignLogistics`; the caller is `req.user.id`. -/
def assignLogistics (s : Store) (now : Time) (user : Actor) (id : Id) : Response × Store :=
  match Order.findById s id with
  | none => (⟨404, .orderNotFound⟩, s)
  | some order =>
    if order.status ≠ "ready" then
      (⟨400, .notReady⟩, s)
    else if order.logisticsId.isSome then
      (⟨400, .alreadyAssigned⟩, s)
    else
      ((⟨200, .logisticsAssigned id user.id⟩ : Response),
        (order.assignLogistics user.id now).writeLogistics s id)

/-- The permission test of `cancelOrder` (the variable `canCancel`). -/
def canCancel (user : Actor) (order : Order) : Bool :=
  if user.role = "consumer" ∧ order.consumerId = user.id then
    decide (order.status ∈ ["pending", "confirmed"])
  else if user.role = "producer" ∧ order.producerId = user.id then
    decide (order.status = "pending")
  else false

/-- Controller `cancelOrder`. -/
def cancelOrder (s : Store) (now : Time) (user : Actor) (id : Id) : Response × Store :=
  match Order.findById s id with
  | none => (⟨404, .orderNotFound⟩, s)
  | some order =>
    if canCancel user order = false then
      (⟨403, .cannotCancel⟩, s)
    else
      match order.cancel now with
      | .error e => (⟨500, .internalError e⟩, s)
      | .ok order1 =>
        (⟨200, .orderCancelled⟩, releaseItems (order1.writeStatus s id) now order1.items)

/-! ## Product controller (`src/controllers/productController.js`) -/

/-- The object handed to `validateProductData`. -/
structure ProductData where
  name : Option String
  description : Option String
  price : Option ℚ
  category : Option String
  stock : Option Int
  producerId : Option Id

/-- The test `!text || text.trim().length < n` of `validateProductData`. -/
def tooShort (text : Option String) (n : Nat) : Bool :=
  match text with
  | none => true
  | some t => decide (t.trim.length < n)

/-- The number of messages `validateProductData(productData)` pushes, check by check. -/
def productDataErrors (d : ProductData) : Nat :=
  (if tooShort d.name 2 then 1 else 0) +
  (if tooShort d.description 10 then 1 else 0) +
  (if (match d.price with
        | none => true
        | some c => decide (c ≤ 0)) then 1 else 0) +
  (if tooShort d.category 2 then 1 else 0) +
  (if (match d.stock with
        | none => false
        | some n => decide (n < 0)) then 1 else 0) +
  (if d.producerId.isNone then 1 else 0)

/-- Field `isValid` of `validateProductData(productData)`. -/
def validateProductData (d : ProductData) : Bool :=
  decide (productDataErrors d = 0)

/-- The product object as `validateProductData` reads it. -/
def Product.toData (p : Product) : ProductData :=
  { name := some p.name, description := some p.description, price := some p.price,
    category := some p.category, stock := some p.stock, producerId := some p.producerId }

/-- The JSON body of `PUT /products/:id` with numeric fields as numbers: `price` is a
number and `stock` an integer, which `parseFloat(price)` and `parseInt(stock)` leave as
they are. A `stock` field that `parseInt` reads as `NaN` (`null`, `"abc"`) is outside
this type: the source stores the `NaN`, which the validation lets through. -/
structure ProductBody where
  name : Option String
  description : Option String
  price : Option ℚ
  category : Option String
  imageUrl : Option String
  stock : Option Int
  unit : Option String
  isAvailable : Option Bool

/-- Controller `updateProduct` on a body with numeric fields as numbers; the validation
runs on the product after the fields were written, so it tests the stored stock. -/
def updateProduct (s : Store) (now : Time) (user : Actor) (id : Id) (body : ProductBody) :
    Response × Store :=
  match Product.findById s id with
  | none => (⟨404, .productNotFound⟩, s)
  | some product =>
    if product.producerId ≠ user.id then
      (⟨403, .productAccessDenied⟩, s)
    else
      let product1 : Product :=
        { product with
          name := body.name.getD product.name,
          description := body.description.getD product.description,
          price := body.price.getD product.price,
          category := body.category.getD product.category,
          imageUrl := body.imageUrl.getD product.imageUrl,
          stock := body.stock.getD product.stock,
          unit := body.unit.getD product.unit,
          isAvailable := body.isAvailable.getD product.isAvailable }
      if validateProductData product1.toData = false then
        (⟨400, .invalidProductData (productDataErrors product1.toData)⟩, s)
      else
        (⟨200, .productUpdated⟩,
          s.updateProductDoc id (fun _ => { product1 with updatedAt := now }))

/-- Controller `updateStock` on a body whose field `stock` is an integer number or
absent: for such a value the guard `stock < 0` and the stored `parseInt(stock)` read the
same integer. `updateStockRaw` is the controller on the field as received. -/
def updateStock (s : Store) (now : Time) (user : Actor) (id : Id) (stock : Option Int) :
    Response × Store :=
  match stock with
  | none => (⟨400, .stockNotNegative⟩, s)
  | some stock =>
    if stock < 0 then
      (⟨400, .stockNotNegative⟩, s)
    else
      match Product.findById s id with
      | none => (⟨404, .productNotFound⟩, s)
      | some product =>
        if product.producerId ≠ user.id then
          (⟨403, .productAccessDenied⟩, s)
        else
          (⟨200, .stockUpdated id stock⟩, product.updateStock s id stock now)

/-! ## Body fields as received, and the coercions the controllers apply to them -/

/-- A JSON value of a request body field before any coercion. Numbers are integers
(below 2^53 in magnitude, where the doubles of the source are exact and print as their
decimal digits); arrays and objects are left out. An absent field (`undefined`) is the
`none` of an `Option JsValue`. -/
inductive JsValue where
  | null
  | bool (b : Bool)
  | number (n : Int)
  | text (t : String)
  deriving DecidableEq

/-- White space and line terminators, which `parseInt` skips before a string and the
conversion of a string to a number skips around it. -/
def isStrWhiteSpace (c : Char) : Bool :=
  [9, 10, 11, 12, 13, 32, 160, 5760, 8232, 8233, 8239, 8287, 12288, 65279].contains c.toNat ||
    (decide (8192 ≤ c.toNat) && decide (c.toNat ≤ 8202))

/-- The value of the character as a digit of the radix, when it is one. -/
def digitOf (radix : Nat) (c : Char) : Option Nat :=
  let n := c.toNat
  let v : Option Nat :=
    if 48 ≤ n ∧ n ≤ 57 then some (n - 48)
    else if 97 ≤ n ∧ n ≤ 122 then some (n - 87)
    else if 65 ≤ n ∧ n ≤ 90 then some (n - 55)
    else none
  v.filter (fun d => decide (d < radix))

/-- Whether the character is a digit of the radix. -/
def isDigitOf (radix : Nat) (c : Char) : Bool :=
  (digitOf radix c).isSome

/-- The number written by the digits in the radix. -/
def digitsValue (radix : Nat) (ds : List Char) : Nat :=
  ds.foldl (fun acc c => acc * radix + (digitOf radix c).getD 0) 0

/-- The characters after an optional leading sign. -/
def dropSign (cs : List Char) : List Char :=
  match cs with
  | [] => []
  | c :: r => if c = '+' ∨ c = '-' then r else c :: r

/-- Built-in `parseInt(t)` on a string, `none` standing for `NaN`: leading white space is
skipped, then an optional sign, then an optional `0x` / `0X` (radix 16, else radix 10),
then the longest run of digits is read; what follows the digits is ignored, and no digit
at all gives `NaN`. -/
def parseIntText (t : String) : Option Int :=
  let s := t.data.dropWhile isStrWhiteSpace
  let negative : Bool := decide (s.head? = some '-')
  let s1 := dropSign s
  let hex : Bool :=
    match s1 with
    | c :: d :: _ => decide (c = '0') && (decide (d = 'x') || decide (d = 'X'))
    | _ => false
  let radix : Nat := if hex then 16 else 10
  let s2 := if hex then s1.drop 2 else s1
  let z := s2.takeWhile (isDigitOf radix)
  if z.isEmpty then none
  else if negative then some (-(digitsValue radix z : Int))
  else some (digitsValue radix z : Int)

/-- The exponent of a decimal literal: nothing (exponent 0), or `e` / `E`, an optional
sign and at least one digit up to the end of the characters. -/
def exponentPart (cs : List Char) : Option Int :=
  match cs with
  | [] => some 0
  | c :: r =>
    if c = 'e' ∨ c = 'E' then
      let ds := dropSign r
      if ds.isEmpty || !ds.all (isDigitOf 10) then none
      else if r.head? = some '-' then some (-(digitsValue 10 ds : Int))
      else some (digitsValue 10 ds : Int)
    else none

/-- The mathematical value of an unsigned decimal literal (`12`, `12.`, `1.25`, `.5`,
each with an optional exponent), when the characters are exactly one. -/
def decimalLiteral (cs : List Char) : Option ℚ :=
  let ip := cs.takeWhile (isDigitOf 10)
  let r1 := cs.dropWhile (isDigitOf 10)
  let dot : Bool := decide (r1.head? = some '.')
  let fp := if dot then (r1.drop 1).takeWhile (isDigitOf 10) else []
  let r2 := if dot then (r1.drop 1).dropWhile (isDigitOf 10) else r1
  if ip.isEmpty && fp.isEmpty then none
  else
    match exponentPart r2 with
    | none => none
    | some e => some ((digitsValue 10 (ip ++ fp) : ℚ) * (10 : ℚ) ^ (e - (fp.length : Int)))

/-- The comparison `t < 0` on a string: the string is converted to a number (white space
around it dropped) and the result is below zero exactly when the string is a decimal
literal with a minus sign whose value does not round to zero as a double, or is
`-Infinity`. Every other string converts to a number that is not negative or to `NaN`,
and `NaN < 0` is false. -/
def textLtZero (t : String) : Bool :=
  let cs := ((t.data.dropWhile isStrWhiteSpace).reverse.dropWhile isStrWhiteSpace).reverse
  match cs with
  | [] => false
  | c :: r =>
    if c = '-' then
      if r = "Infinity".data then true
      else
        match decimalLiteral r with
        | none => false
        | some v => decide (1 / (2 : ℚ) ^ 1075 < v)
    else false

/-- The comparison `value < 0` of the source on a body field (`null` converts to 0,
`false` and `true` to 0 and 1). -/
def JsValue.ltZero : JsValue → Bool
  | .null => false
  | .bool _ => false
  | .number n => decide (n < 0)
  | .text t => textLtZero t

/-- Built-in `parseInt(value)` on a body field, `none` standing for `NaN`: the value is
first printed as a string, so an integer number reads back as itself and `null`, `true`
and `false` give `NaN`. -/
def JsValue.parseInt : JsValue → Option Int
  | .null => none
  | .bool _ => none
  | .number n => some n
  | .text t => parseIntText t

/-- Controller `updateStock` on the body field `stock` as received: the guard tests the
field itself (`stock === undefined || stock < 0`), the write and the response carry
`parseInt(stock)`. The result is `none` when `parseInt(stock)` is `NaN`, a stock that
`Product.stock` does not represent. -/
def updateStockRaw (s : Store) (now : Time) (user : Actor) (id : Id) (stock : Option JsValue) :
    Option (Response × Store) :=
  match stock with
  | none => some (⟨400, .stockNotNegative⟩, s)
  | some stock =>
    if stock.ltZero then
      some (⟨400, .stockNotNegative⟩, s)
    else
      match Product.findById s id with
      | none => some (⟨404, .productNotFound⟩, s)
      | some product =>
        if product.producerId ≠ user.id then
          some (⟨403, .productAccessDenied⟩, s)
        else
          match stock.parseInt with
          | none => none
          | some n => some (⟨200, .stockUpdated id n⟩, product.updateStock s id n now)

/-! ## Catalogue listing (`Product.js`, `productController.js`) and order statistics -/

/-- The documents of `db.collection('products')`; `ids` are the ids under which the
collection holds documents, in the order the store enumerates them. -/
def Store.productDocs (s : Store) (ids : List Id) : List (Id × Product) :=
  ids.filterMap (fun k => (s.products k).map (fun p => (k, p)))

/-- The documents of `db.collection('orders')`, enumerated through `ids`. -/
def Store.orderDocs (s : Store) (ids : List Id) : List (Id × Order) :=
  ids.filterMap (fun k => (s.orders k).map (fun o => (k, o)))

/-- Query `Product.findAvailable()`: `isAvailable == true`, `stock > 0`, ordered by
stock, then by creation time, both descending. -/
def Product.findAvailable (s : Store) (ids : List Id) : List (Id × Product) :=
  List.insertionSort
    (fun a b => b.2.stock < a.2.stock ∨ (a.2.stock = b.2.stock ∧ b.2.createdAt ≤ a.2.createdAt))
    ((s.productDocs ids).filter (fun d => d.2.isAvailable && decide (0 < d.2.stock)))

/-- Query `Product.findByCategory(category)`: the category, `isAvailable == true`,
`stock > 0`, ordered by stock descending. -/
def Product.findByCategory (s : Store) (ids : List Id) (category : String) :
    List (Id × Product) :=
  List.insertionSort (fun a b => b.2.stock ≤ a.2.stock)
    ((s.productDocs ids).filter
      (fun d => decide (d.2.category = category) && d.2.isAvailable && decide (0 < d.2.stock)))

/-- The test `name.toLowerCase().includes(searchTerm.toLowerCase())`, on the characters
of the two strings. -/
def includesLower (name searchTerm : String) : Bool :=
  decide ((searchTerm.data.map Char.toLower) <:+: (name.data.map Char.toLower))

/-- Query `Product.searchByName(searchTerm)`: the documents with `isAvailable == true`
whose name includes the term. -/
def Product.searchByName (s : Store) (ids : List Id) (searchTerm : String) :
    List (Id × Product) :=
  ((s.productDocs ids).filter (fun d => d.2.isAvailable)).filter
    (fun d => includesLower d.2.name searchTerm)

/-- Controller `getAvailableProducts`: the list `data.products` of its answer, for the
query parameters `category` and `search` (an empty string counts as absent). -/
def getAvailableProducts (s : Store) (ids : List Id) (category search : Option String) :
    List (Id × Product) :=
  match search.filter (fun t => t != ""), category.filter (fun c => c != "") with
  | some searchTerm, _ => Product.searchByName s ids searchTerm
  | none, some c => Product.findByCategory s ids c
  | none, none => Product.findAvailable s ids

/-- Query `Order.findByProducer(producerId)`: the producer's orders, newest first. -/
def Order.findByProducer (s : Store) (ids : List Id) (producerId : Id) : List (Id × Order) :=
  List.insertionSort (fun a b => b.2.createdAt ≤ a.2.createdAt)
    ((s.orderDocs ids).filter (fun d => decide (d.2.producerId = producerId)))

/-- The object `stats` of `getOrderStatistics`. -/
structure OrderStats where
  total : Nat
  pending : Nat
  confirmed : Nat
  preparing : Nat
  ready : Nat
  in_delivery : Nat
  delivered : Nat
  cancelled : Nat
  totalRevenue : ℚ
  deriving DecidableEq

/-- The statement `stats[order.status]++`: increments the property the status names (a
status naming no property of `stats` leaves the nine properties as they are). -/
def OrderStats.increment (st : OrderStats) (status : String) : OrderStats :=
  if status = "pending" then { st with pending := st.pending + 1 }
  else if status = "confirmed" then { st with confirmed := st.confirmed + 1 }
  else if status = "preparing" then { st with preparing := st.preparing + 1 }
  else if status = "ready" then { st with ready := st.ready + 1 }
  else if status = "in_delivery" then { st with in_delivery := st.in_delivery + 1 }
  else if status = "delivered" then { st with delivered := st.delivered + 1 }
  else if status = "cancelled" then { st with cancelled := st.cancelled + 1 }
  else if status = "total" then { st with total := st.total + 1 }
  else if status = "totalRevenue" then { st with totalRevenue := st.totalRevenue + 1 }
  else st

/-- The callback of `periodOrders.forEach` in `getOrderStatistics`. -/
def OrderStats.record (st : OrderStats) (order : Order) : OrderStats :=
  let st1 := st.increment order.status
  if order.status = "delivered" then
    { st1 with totalRevenue := st1.totalRevenue + order.totalAmount }
  else st1

/-- Thirty days, in the milliseconds of the timestamps. -/
def thirtyDays : Nat := 30 * 24 * 60 * 60 * 1000

/-- The answer of `getOrderStatistics`: status code, `data.statistics`, `data.period`. -/
structure StatsResponse where
  code : Nat
  statistics : Option OrderStats
  period : Option (Time × Time)
  deriving DecidableEq

/-- Controller `getOrderStatistics`, called at time `now`. Timestamps are non-negative,
so the truncated `now - thirtyDays` decides the same comparisons as the date thirty days
before `now`. -/
def getOrderStatistics (s : Store) (ids : List Id) (now : Time) (user : Actor) :
    StatsResponse × Store :=
  if user.role ≠ "producer" then
    (⟨403, none, none⟩, s)
  else
    let endDate := now
    let startDate := now - thirtyDays
    let allOrders := Order.findByProducer s ids user.id
    let periodOrders := allOrders.filter
      (fun d => decide (startDate ≤ d.2.createdAt) && decide (d.2.createdAt ≤ endDate))
    let stats : OrderStats :=
      { total := periodOrders.length, pending := 0, confirmed := 0, preparing := 0, ready := 0,
        in_delivery := 0, delivered := 0, cancelled := 0, totalRevenue := 0 }
    (⟨200, some (periodOrders.foldl (fun st d => st.record d.2) stats), some (startDate, endDate)⟩,
      s)

/-! ## Product availability and deletion, order lookup -/

/-- Method `Product.toggleAvailability()` on the object `p` read under `id`. -/
def Product.toggleAvailability (p : Product) (s : Store) (id : Id) (now : Time) : Store :=
  s.updateProductDoc id (fun d => { d with isAvailable := !p.isAvailable, updatedAt := now })

/-- Store write `db.collection('products').doc(id).delete()` of `Product.delete()`. -/
def Store.deleteProductDoc (s : Store) (id : Id) : Store :=
  { s with products := fun k => if k = id then none else s.products k }

/-- Controller `toggleAvailability`. -/
def toggleAvailability (s : Store) (now : Time) (user : Actor) (id : Id) : Response × Store :=
  match Product.findById s id with
  | none => (⟨404, .productNotFound⟩, s)
  | some product =>
    if product.producerId ≠ user.id then
      (⟨403, .productAccessDenied⟩, s)
    else
      (⟨200, .availabilityChanged id (!product.isAvailable)⟩,
        product.toggleAvailability s id now)

/-- Controller `deleteProduct`. -/
def deleteProduct (s : Store) (user : Actor) (id : Id) : Response × Store :=
  match Product.findById s id with
  | none => (⟨404, .productNotFound⟩, s)
  | some product =>
    if product.producerId ≠ user.id then
      (⟨403, .productDeleteDenied⟩, s)
    else
      (⟨200, .productDeleted⟩, s.deleteProductDoc id)

/-- The answer of `getOrderById`: status code, message of a refusal, `data.order`. -/
structure OrderAnswer where
  code : Nat
  msg : Option Msg
  order : Option Order
  deriving DecidableEq

/-- Controller `getOrderById`. -/
def getOrderById (s : Store) (user : Actor) (id : Id) : OrderAnswer :=
  match Order.findById s id with
  | none => ⟨404, some .orderNotFound, none⟩
  | some order =>
    let hasAccess : Bool :=
      decide (order.consumerId = user.id) || decide (order.producerId = user.id) ||
        decide (order.logisticsId = some user.id)
    if hasAccess = false then
      ⟨403, some .orderAccessDenied, none⟩
    else
      ⟨200, none, some order⟩

/-! ## Request sequences -/

/-- A request to one of the controllers, with the request time. -/
inductive Request where
  | createOrder (now : Time) (newId : Id) (user : Actor) (body : OrderBody)
  | updateOrderStatus (now : Time) (user : Actor) (id : Id) (status : Option String)
  | cancelOrder (now : Time) (user : Actor) (id : Id)
  | assignLogistics (now : Time) (user : Actor) (id : Id)
  | updateStock (now : Time) (user : Actor) (id : Id) (stock : Option Int)
  | updateProduct (now : Time) (user : Actor) (id : Id) (body : ProductBody)

/-- Serving one request. -/
def step (s : Store) : Request → Response × Store
  | .createOrder now newId user body => createOrder s now newId user body
  | .updateOrderStatus now user id status => updateOrderStatus s now user id status
  | .cancelOrder now user id => cancelOrder s now user id
  | .assignLogistics now user id => assignLogistics s now user id
  | .updateStock now user id stock => updateStock s now user id stock
  | .updateProduct now user id body => updateProduct s now user id body

/-- The store after serving the requests one after the other. -/
def run (s : Store) : List Request → Store
  | [] => s
  | r :: rest => run (step s r).2 rest

/-- The stock of product `id`, when it exists. -/
def stockOf (s : Store) (id : Id) : Option Int :=
  (s.products id).map (fun p => p.stock)

/-- The status of order `id`, when it exists. -/
def statusOf (s : Store) (id : Id) : Option String :=
  (s.orders id).map (fun o => o.status)


/-! ## Predicates of the statements and example data -/

/-- What one item satisfies when the three checks push nothing. -/
def ItemInput.WellFormed (item : ItemInput) : Prop :=
  (∃ pid, item.productId = some pid) ∧ (∃ q, item.quantity = some q ∧ 0 < q) ∧
    (∃ c, item.price = some c ∧ 0 < c)

/-- The transition table of the specification, as rows (role, current status,
requested status); the party condition of each row is in `TableAllows`. -/
def transitionTable : List (String × String × String) :=
  [("producer", "pending", "confirmed"), ("producer", "confirmed", "preparing"),
   ("producer", "preparing", "ready"), ("logistics", "ready", "in_delivery"),
   ("logistics", "in_delivery", "delivered"), ("consumer", "pending", "cancelled")]

/-- The party condition of the table: the producer and the consumer own the order, the
logistics actor is the assigned one. -/
def IsParty (user : Actor) (order : Order) : Prop :=
  (user.role = "producer" ∧ order.producerId = user.id) ∨
  (user.role = "logistics" ∧ order.logisticsId = some user.id) ∨
  (user.role = "consumer" ∧ order.consumerId = user.id)

/-- A request that the transition table of the specification admits. -/
def TableAllows (user : Actor) (order : Order) (status : String) : Prop :=
  (user.role, order.status, status) ∈ transitionTable ∧ IsParty user order

/-- What the permission switch of `updateOrderStatus` admits: the owning producer may
request confirmed, preparing or ready; the assigned logistics actor in_delivery or
delivered; the owning consumer cancelled on a pending order. -/
def RoleAllows (user : Actor) (order : Order) (status : String) : Prop :=
  (user.role = "producer" ∧ order.producerId = user.id ∧
    (status = "confirmed" ∨ status = "preparing" ∨ status = "ready")) ∨
  (user.role = "logistics" ∧ order.logisticsId = some user.id ∧
    (status = "in_delivery" ∨ status = "delivered")) ∨
  (user.role = "consumer" ∧ order.consumerId = user.id ∧
    status = "cancelled" ∧ order.status = "pending")

/-- Seed product 'Tomate Orgânico': price 8.50, stock 50, producer 10. -/
def prodA : Product :=
  { name := "Tomate Orgânico", description := "Tomates frescos cultivados sem agrotóxicos",
    price := 17 / 2, category := "Verduras", imageUrl := "", stock := 50, unit := "kg",
    producerId := 10, isAvailable := true, createdAt := 0, updatedAt := 0 }

/-- Seed product 'Alface Crespa': price 3.00, stock 30, producer 10. -/
def prodB : Product :=
  { name := "Alface Crespa", description := "Alface crespa fresca e crocante",
    price := 3, category := "Verduras", imageUrl := "", stock := 30, unit := "unidade",
    producerId := 10, isAvailable := true, createdAt := 0, updatedAt := 0 }

/-- A delivery address with a street. -/
def demoAddress : Address :=
  { street := some "Rua das Flores, 123", neighborhood := some "Centro",
    city := some "São Paulo", state := some "SP", zipCode := some "01234-567" }

/-- An order of consumer 20 at producer 10 for 3 kg of product 1, in the given status,
with the given logistics actor and delivery time. -/
def demoOrder (status : String) (logisticsId : Option Id) (deliveredAt : Option Time) : Order :=
  { consumerId := 20, producerId := 10, logisticsId := logisticsId,
    items := [{ productId := 1, productName := "Tomate Orgânico", price := 17 / 2,
                quantity := 3, unit := "kg", subtotal := 51 / 2 }],
    totalAmount := 61 / 2, status := status, deliveryAddress := demoAddress,
    deliveryFee := 5, notes := "", estimatedDeliveryTime := none, createdAt := 1,
    updatedAt := 1, deliveredAt := deliveredAt }

/-- A store holding product 1 with the given stock and the order 1 `demoOrder`. -/
def demoStore (stock : Int) (status : String) (logisticsId : Option Id)
    (deliveredAt : Option Time) : Store :=
  { products := fun k => if k = 1 then some { prodA with stock := stock } else none,
    orders := fun k => if k = 1 then some (demoOrder status logisticsId deliveredAt) else none }

/-- An order request naming product 1 in two lines of 3 kg each (the price field of a
line is only validated, never used). -/
def duplicateLinesBody : OrderBody :=
  { producerId := some 10,
    items := some [{ productId := some 1, quantity := some 3, price := some 9 },
                   { productId := some 1, quantity := some 3, price := some 9 }],
    deliveryAddress := some demoAddress, deliveryFee := some 5, notes := none }

/-- The request body of the API documentation of `POST /api/orders`: the items carry a
product id and a quantity, and no price. -/
def documentedBody : OrderBody :=
  { producerId := some 10,
    items := some [{ productId := some 1, quantity := some 2, price := none }],
    deliveryAddress := some demoAddress, deliveryFee := some 5,
    notes := some "Entregar pela manhã" }

/-- Cancel by the consumer, reopening by the producer, cancel by the consumer again. -/
def cancelReopenCancel : List Request :=
  [.cancelOrder 9 ⟨20, "consumer"⟩ 1,
   .updateOrderStatus 10 ⟨10, "producer"⟩ 1 (some "confirmed"),
   .cancelOrder 11 ⟨20, "consumer"⟩ 1]

/-- The sum over the items of price × quantity. -/
def lineSum (items : List OrderItem) : ℚ :=
  (items.map (fun item => item.price * (item.quantity : ℚ))).sum

/-- The order's total is the sum of price × quantity over its items plus the fee. -/
def TotalConsistent (o : Order) : Prop :=
  o.totalAmount = lineSum o.items + o.deliveryFee

/-- The order `order1` of `seedOrders` as constructed: no items, delivery fee 5.00. -/
def seedOrderEmpty : Order :=
  { consumerId := 20, producerId := 10, logisticsId := none, items := [], totalAmount := 0,
    status := "pending", deliveryAddress := demoAddress, deliveryFee := 5,
    notes := "Entregar pela manhã, se possível", estimatedDeliveryTime := none,
    createdAt := 1, updatedAt := 1, deliveredAt := none }

/-- The order `order1` of `seedOrders` after its two `addItem` calls: 2 × 8.50 and
3 × 3.00. -/
def seedOrder1 : Order :=
  (seedOrderEmpty.addItem 1 "Tomate Orgânico" (17 / 2) 2 "kg").addItem 2 "Alface Crespa" 3 3
    "unidade"

/-- Every stored product has a non-negative stock. -/
def StockNonneg (s : Store) : Prop :=
  ∀ id p, s.products id = some p → 0 ≤ p.stock

/-- Every item of every stored order has a non-negative quantity (what `createOrder`
stores: its validation admits positive quantities only). -/
def QuantitiesNonneg (s : Store) : Prop :=
  ∀ id o, s.orders id = some o → ∀ item ∈ o.items, 0 ≤ item.quantity

/-- The total quantity the items order of product `pid`. -/
def orderedQty (items : List OrderItem) (pid : Id) : Int :=
  ((items.filter (fun item => item.productId = pid)).map (fun item => item.quantity)).sum

/-- The seed order request: 2 × product 1 and 3 × product 2 at producer 10, fee 5.00. -/
def seedBody : OrderBody :=
  { producerId := some 10,
    items := some [{ productId := some 1, quantity := some 2, price := some 9 },
                   { productId := some 2, quantity := some 3, price := some 3 }],
    deliveryAddress := some demoAddress, deliveryFee := some 5, notes := none }

/-- A store with the two seed products (stock 50 and 30) and no order. -/
def seedStore : Store :=
  { products := fun k => if k = 1 then some prodA else if k = 2 then some prodB else none,
    orders := fun _ => none }

/-- A request line that passes the four checks of the first loop of `createOrder` for the
target producer: its product exists, is available, has enough stock and belongs to the
producer. -/
def LinePasses (s : Store) (producer : Id) (line : ItemInput) : Prop :=
  ∃ pid q p, line.productId = some pid ∧ line.quantity = some q ∧ s.products pid = some p ∧
    p.isAvailable = true ∧ q ≤ p.stock ∧ p.producerId = producer

/-- The order item is the snapshot of the request line: the line's product and quantity,
the product's current name, price and unit, and subtotal price × quantity. -/
def Snapshot (s : Store) (line : ItemInput) (item : OrderItem) : Prop :=
  line.productId = some item.productId ∧ line.quantity = some item.quantity ∧
    ∃ p, s.products item.productId = some p ∧ item.productName = p.name ∧
      item.price = p.price ∧ item.unit = p.unit ∧
      item.subtotal = p.price * (item.quantity : ℚ)

/-- An order request whose second line asks for more of product 2 than is in stock. -/
def shortStockBody : OrderBody :=
  { producerId := some 10,
    items := some [{ productId := some 1, quantity := some 2, price := some 9 },
                   { productId := some 2, quantity := some 40, price := some 3 }],
    deliveryAddress := some demoAddress, deliveryFee := some 5, notes := none }

/-- The responses of serving the requests one after the other. -/
def responses (s : Store) : List Request → List Response
  | [] => []
  | r :: rest => (step s r).1 :: responses (step s r).2 rest

/-- The delivery scenario on order `id`: the producer sets confirmed, preparing and
ready, the courier assigns itself and sets in_delivery and delivered, at the times
`t1` to `t6`. -/
def deliveryFlow (id : Id) (producer courier : Actor) (t1 t2 t3 t4 t5 t6 : Time) :
    List Request :=
  [.updateOrderStatus t1 producer id (some "confirmed"),
   .updateOrderStatus t2 producer id (some "preparing"),
   .updateOrderStatus t3 producer id (some "ready"),
   .assignLogistics t4 courier id,
   .updateOrderStatus t5 courier id (some "in_delivery"),
   .updateOrderStatus t6 courier id (some "delivered")]

/-- The id the store generates for the document a request adds, when it adds one. -/
def Request.generatedId : Request → Option Id
  | .createOrder _ newId _ _ => some newId
  | _ => none

/-- The logistics actor of order `id`, when the order exists. -/
def logisticsOf (s : Store) (id : Id) : Option (Option Id) :=
  (s.orders id).map (fun o => o.logisticsId)

/-- What the permission test of `cancelOrder` admits: the consuming owner on a pending
or confirmed order, the producing owner on a pending order. -/
def CancelAllowed (user : Actor) (order : Order) : Prop :=
  (user.role = "consumer" ∧ order.consumerId = user.id ∧
    (order.status = "pending" ∨ order.status = "confirmed")) ∨
  (user.role = "producer" ∧ order.producerId = user.id ∧ order.status = "pending")

/-- The courier assigns itself to the ready order 1, sets it in delivery, and another
courier then tries to assign itself. -/
def assignThenDeliver : List Request :=
  [.assignLogistics 2 ⟨30, "logistics"⟩ 1,
   .updateOrderStatus 3 ⟨30, "logistics"⟩ 1 (some "in_delivery")]

/-- An order request for product 1 in two lines of 3 kg each at a stock that covers
both: `createOrder` stores an order with two items of product 1. -/
def twoLinesFlow : List Request :=
  [.createOrder 9 100 ⟨20, "consumer"⟩ duplicateLinesBody,
   .updateOrderStatus 10 ⟨20, "consumer"⟩ 100 (some "cancelled")]

/-- A store whose only product, 'Tomate Orgânico', is available and sold out. -/
def soldOutStore : Store :=
  { products := fun k => if k = 1 then some { prodA with stock := 0 } else none,
    orders := fun _ => none }

/-- The empty seed order after two `addItem` calls for the same product: 2 kg, then
3 kg more, at 8.50. -/
def mergedOrder : Order :=
  (seedOrderEmpty.addItem 1 "Tomate Orgânico" (17 / 2) 2 "kg").addItem 1 "Tomate Orgânico"
    (17 / 2) 3 "kg"

/-- The stored orders of the producer whose creation time lies in the thirty days that
end at `now`. -/
def countedOrders (s : Store) (ids : List Id) (now : Time) (producerId : Id) :
    List (Id × Order) :=
  ((s.orderDocs ids).filter (fun d => decide (d.2.producerId = producerId))).filter
    (fun d => decide (now - thirtyDays ≤ d.2.createdAt) && decide (d.2.createdAt ≤ now))

/-- The number of the orders with the given status. -/
def statusCount (orders : List (Id × Order)) (status : String) : Nat :=
  orders.countP (fun d => decide (d.2.status = status))

/-- The sum of `totalAmount` over the orders with status delivered. -/
def deliveredRevenue (orders : List (Id × Order)) : ℚ :=
  ((orders.filter (fun d => decide (d.2.status = "delivered"))).map
    (fun d => d.2.totalAmount)).sum

/-- A store with four orders: 1 delivered and 2 pending of producer 10 inside the window
that ends at `thirtyDays + 50`, 3 delivered of producer 10 before the window, 4 delivered
of producer 11 inside it. -/
def statsStore : Store :=
  { products := fun _ => none,
    orders := fun k =>
      if k = 1 then
        some { demoOrder "delivered" (some 30) (some (thirtyDays + 20)) with
               createdAt := thirtyDays + 10 }
      else if k = 2 then some { demoOrder "pending" none none with createdAt := thirtyDays + 30 }
      else if k = 3 then some { demoOrder "delivered" (some 30) (some 8) with createdAt := 5 }
      else if k = 4 then
        some { demoOrder "delivered" (some 30) (some (thirtyDays + 20)) with
               producerId := 11, createdAt := thirtyDays + 10 }
      else none }

/-- The caller is a party to the order: its id is the order's consumer, producer or
logistics actor. -/
def IsPartyId (user : Actor) (order : Order) : Prop :=
  order.consumerId = user.id ∨ order.producerId = user.id ∨ order.logisticsId = some user.id

/-- An order request to producer 11 for 2 kg of product 1, which belongs to producer 10. -/
def otherProducerBody : OrderBody :=
  { producerId := some 11,
    items := some [{ productId := some 1, quantity := some 2, price := some 9 }],
    deliveryAddress := some demoAddress, deliveryFee := some 5, notes := none }

/-- The total quantity of product `pid` over the items of the stored orders (enumerated
through `ids`) whose status is not cancelled. -/
def reservedQty (s : Store) (ids : List Id) (pid : Id) : Int :=
  (((s.orderDocs ids).filter (fun d => d.2.status != "cancelled")).map
    (fun d => orderedQty d.2.items pid)).sum

/-- The stock of product `pid` plus the quantity of it that non-cancelled orders hold. -/
def stockPlusReserved (s : Store) (ids : List Id) (pid : Id) : Option Int :=
  (stockOf s pid).map (fun n => n + reservedQty s ids pid)

/-- The seed order is created, cancelled by the consumer, and set to confirmed by the
producer. -/
def createCancelReopen : List Request :=
  [.createOrder 9 100 ⟨20, "consumer"⟩ seedBody,
   .cancelOrder 10 ⟨20, "consumer"⟩ 100,
   .updateOrderStatus 11 ⟨10, "producer"⟩ 100 (some "confirmed")]

/-- Every order in delivery or delivered has a logistics actor. -/
def DeliveryHasCourier (s : Store) : Prop :=
  ∀ id o, s.orders id = some o → (o.status = "in_delivery" ∨ o.status = "delivered") →
    ∃ courier, o.logisticsId = some courier

/-- The seed order is created and taken through the delivery scenario by producer 10
and courier 30. -/
def createAndDeliver : List Request :=
  .createOrder 1 100 ⟨20, "consumer"⟩ seedBody ::
    deliveryFlow 100 ⟨10, "producer"⟩ ⟨30, "logistics"⟩ 2 3 4 5 6 7

/-! ## Validation lemmas -/

theorem itemErrors_eq_nil {index : Nat} {item : ItemInput} (h : itemErrors index item = []) :
    item.WellFormed := by
  obtain ⟨pid, q, c⟩ := item
  unfold itemErrors at h
  simp only [List.append_eq_nil] at h
  obtain ⟨⟨h1, h2⟩, h3⟩ := h
  refine ⟨?_, ?_, ?_⟩
  · cases pid with
    | none => simp at h1
    | some v => exact ⟨v, rfl⟩
  · cases q with
    | none => simp at h2
    | some v =>
      refine ⟨v, rfl, ?_⟩
      by_contra hv
      simp [not_lt.mp hv] at h2
  · cases c with
    | none => simp at h3
    | some v =>
      refine ⟨v, rfl, ?_⟩
      by_contra hv
      simp [not_lt.mp hv] at h3

theorem itemsErrors_eq_nil {items : List ItemInput} :
    ∀ {index : Nat}, itemsErrors index items = [] → ∀ item ∈ items, item.WellFormed := by
  induction items with
  | nil => intro _ _ item hmem; cases hmem
  | cons x rest ih =>
    intro index h item hmem
    simp only [itemsErrors, List.append_eq_nil] at h
    rcases List.mem_cons.mp hmem with rfl | hin
    · exact itemErrors_eq_nil h.1
    · exact ih h.2 item hin

/-- A valid order data has a producer, a non-empty item list of well-formed items. -/
theorem validateOrderData_valid {d : OrderData} (h : (validateOrderData d).isValid = true) :
    (∃ producer, d.producerId = some producer) ∧
      ∃ items, d.items = some items ∧ items ≠ [] ∧ ∀ item ∈ items, item.WellFormed := by
  unfold validateOrderData at h
  simp only [decide_eq_true_eq, List.length_eq_zero, List.append_eq_nil] at h
  obtain ⟨⟨⟨⟨_, h2⟩, h3⟩, h4⟩, _⟩ := h
  refine ⟨?_, ?_⟩
  · cases hp : d.producerId with
    | none => simp [hp] at h2
    | some v => exact ⟨v, rfl⟩
  · cases hi : d.items with
    | none => simp [hi] at h3
    | some items =>
      refine ⟨items, rfl, ?_, ?_⟩
      · rintro rfl
        simp [hi] at h3
      · rw [hi] at h4
        exact itemsErrors_eq_nil h4

/-! ## Status transitions -/

theorem canUpdate_iff (user : Actor) (order : Order) (status : String) :
    canUpdate user order status = true ↔ RoleAllows user order status := by
  unfold canUpdate RoleAllows
  by_cases hp : user.role = "producer"
  · by_cases ho : order.producerId = user.id <;> simp [hp, ho]
  · by_cases hl : user.role = "logistics"
    · by_cases ho : order.logisticsId = some user.id <;> simp [hl, ho]
    · by_cases hc : user.role = "consumer"
      · by_cases ho : order.consumerId = user.id <;> simp [hc, ho]
      · simp [hp, hl, hc]

/-- C1, the code at the failing input: the owning producer asks for ready on a pending
order. The triple (producer, pending, ready) is not a row of the transition table, yet
the request is answered 200 and the stored status becomes ready: the producer branch of
the permission switch tests the requested status only, never the current one. -/
theorem C1_pending_order_set_ready :
    ¬ TableAllows ⟨10, "producer"⟩ (demoOrder "pending" none none) "ready" ∧
      statusOf (demoStore 47 "pending" none none) 1 = some "pending" ∧
      (updateOrderStatus (demoStore 47 "pending" none none) 9 ⟨10, "producer"⟩ 1
        (some "ready")).1.code = 200 ∧
      statusOf (updateOrderStatus (demoStore 47 "pending" none none) 9 ⟨10, "producer"⟩ 1
        (some "ready")).2 1 = some "ready" := by
  refine ⟨?_, by decide, by decide, by decide⟩
  rintro ⟨h, _⟩
  revert h
  decide

/-- C2, the code at the failing input: the owning producer asks for confirmed on a
delivered order; the request is served and the order leaves its terminal status. The
assigned logistics actor asking for delivered again moves `deliveredAt` from 8 to 9. -/
theorem C2_delivered_order_reopened :
    statusOf (demoStore 47 "delivered" (some 30) (some 8)) 1 = some "delivered" ∧
      (updateOrderStatus (demoStore 47 "delivered" (some 30) (some 8)) 9 ⟨10, "producer"⟩ 1
        (some "confirmed")).1.code = 200 ∧
      statusOf (updateOrderStatus (demoStore 47 "delivered" (some 30) (some 8)) 9
        ⟨10, "producer"⟩ 1 (some "confirmed")).2 1 = some "confirmed" ∧
      ((updateOrderStatus (demoStore 47 "delivered" (some 30) (some 8)) 9
        ⟨30, "logistics"⟩ 1 (some "delivered")).2.orders 1).map (fun o => o.deliveredAt) =
        some (some 9) := by
  refine ⟨by decide, by decide, by decide, by decide⟩

/-! ## Failing inputs of the reservation and validation paths -/

/-- C3, the code at the failing input: product 1 has stock 5 and the request names it in
two lines of 3; the request is answered 500 after the order was stored and the first
line's quantity was taken from the stock. -/
theorem C3_duplicate_lines_leave_partial_reservation :
    stockOf (demoStore 5 "pending" none none) 1 = some 5 ∧
      (demoStore 5 "pending" none none).orders 100 = none ∧
      (createOrder (demoStore 5 "pending" none none) 9 100 ⟨20, "consumer"⟩
        duplicateLinesBody).1.code = 500 ∧
      ((createOrder (demoStore 5 "pending" none none) 9 100 ⟨20, "consumer"⟩
        duplicateLinesBody).2.orders 100).isSome = true ∧
      stockOf (createOrder (demoStore 5 "pending" none none) 9 100 ⟨20, "consumer"⟩
        duplicateLinesBody).2 1 = some 2 := by
  refine ⟨by decide, by decide, by decide, by decide, by decide⟩

/-- C6, the code at the failing input: the order holds 3 kg of product 1 (stock 47 after
the reservation). The consumer cancels (stock 50), the producer sets the cancelled order
to confirmed, the consumer cancels again: the stock is released a second time (53). -/
theorem C6_stock_released_twice :
    stockOf (demoStore 47 "pending" none none) 1 = some 47 ∧
      stockOf (run (demoStore 47 "pending" none none) (cancelReopenCancel.take 1)) 1 = some 50 ∧
      statusOf (run (demoStore 47 "pending" none none) (cancelReopenCancel.take 1)) 1 =
        some "cancelled" ∧
      statusOf (run (demoStore 47 "pending" none none) (cancelReopenCancel.take 2)) 1 =
        some "confirmed" ∧
      (step (run (demoStore 47 "pending" none none) (cancelReopenCancel.take 2))
        (.cancelOrder 11 ⟨20, "consumer"⟩ 1)).1.code = 200 ∧
      stockOf (run (demoStore 47 "pending" none none) cancelReopenCancel) 1 = some 53 := by
  refine ⟨by decide, by decide, by decide, by decide, by decide, by decide⟩

/-- C10, the code on the documented body: an order request whose first item has no price
field is not valid for `validateOrderData`, and `createOrder` answers it with 400 'Dados
inválidos' without touching the store. -/
theorem C10_items_without_price_rejected (s : Store) (now : Time) (newId : Id) (user : Actor)
    (body : OrderBody) (item : ItemInput) (rest : List ItemInput)
    (hitems : body.items = some (item :: rest)) (hprice : item.price = none) :
    (validateOrderData (orderDataOf user body)).isValid = false ∧
      (createOrder s now newId user body).1.code = 400 ∧
      (createOrder s now newId user body).2 = s := by
  have hv : (validateOrderData (orderDataOf user body)).isValid = false := by
    rw [← Bool.not_eq_true]
    intro h
    obtain ⟨_, items, hi, _, hall⟩ := validateOrderData_valid h
    simp only [orderDataOf, hitems, Option.some.injEq] at hi
    subst hi
    obtain ⟨_, _, c, hc, _⟩ := hall item (List.mem_cons_self _ _)
    rw [hprice] at hc
    cases hc
  refine ⟨hv, ?_, ?_⟩ <;> simp [createOrder, hv]

/-- C10, the documented request body with a consumer, a producer, one item with product
id and quantity 2, and an address with a street: answered 400. -/
theorem C10_items_without_price_rejected_witness :
    (createOrder (demoStore 50 "pending" none none) 9 100 ⟨20, "consumer"⟩
        documentedBody).1 = ⟨400, .invalidData [.itemPricePositive 1]⟩ ∧
      (createOrder (demoStore 50 "pending" none none) 9 100 ⟨20, "consumer"⟩
        documentedBody).1.code = 400 := by
  refine ⟨by decide, ?_⟩
  exact (C10_items_without_price_rejected (demoStore 50 "pending" none none) 9 100
    ⟨20, "consumer"⟩ documentedBody { productId := some 1, quantity := some 2, price := none }
    [] rfl rfl).2.1

/-! ## Order totals -/

theorem foldl_price_quantity (items : List OrderItem) (acc : ℚ) :
    items.foldl (fun a item => a + item.price * (item.quantity : ℚ)) acc =
      acc + lineSum items := by
  induction items generalizing acc with
  | nil => simp [lineSum]
  | cons x rest ih =>
    simp only [List.foldl_cons, ih]
    simp only [lineSum, List.map_cons, List.sum_cons]
    ring

theorem itemsTotal_eq_lineSum (items : List OrderItem) : itemsTotal items = lineSum items := by
  unfold itemsTotal
  rw [foldl_price_quantity]
  ring

theorem calculateTotal_consistent (o : Order) : TotalConsistent o.calculateTotal := by
  simp [TotalConsistent, Order.calculateTotal, itemsTotal_eq_lineSum]

/-- C7: after `calculateTotal`, `addItem`, `removeItem`, and after an `updateItemQuantity`
that returns, the order's `totalAmount` is the sum over its items of price × quantity plus
its `deliveryFee`, in exact arithmetic. -/
theorem C7_total_is_sum_of_lines_plus_fee (o : Order) (productId : Id) (productName : String)
    (price : ℚ) (quantity : Int) (unit : String) (newQuantity : Int) :
    TotalConsistent o.calculateTotal ∧
      TotalConsistent (o.addItem productId productName price quantity unit) ∧
      TotalConsistent (o.removeItem productId) ∧
      (∀ o1, o.updateItemQuantity productId newQuantity = .ok o1 → TotalConsistent o1) := by
  refine ⟨calculateTotal_consistent o, ?_, calculateTotal_consistent _, ?_⟩
  · unfold Order.addItem
    split <;> exact calculateTotal_consistent _
  · intro o1 h
    unfold Order.updateItemQuantity at h
    split at h
    · split at h
      · cases h
        exact calculateTotal_consistent _
      · cases h
        exact calculateTotal_consistent _
    · cases h

/-- C7 on the seed order: 2 × 8.50 and 3 × 3.00 with fee 5.00 total 31.00, and setting
the quantity of the second line to 0 succeeds and keeps the total consistent. -/
theorem C7_total_is_sum_of_lines_plus_fee_witness :
    seedOrder1.totalAmount = 31 ∧
      seedOrder1.updateItemQuantity 2 0 = .ok (seedOrder1.removeItem 2) ∧
      TotalConsistent (seedOrder1.removeItem 2) := by
  have hu : seedOrder1.updateItemQuantity 2 0 = .ok (seedOrder1.removeItem 2) := by
    simp [Order.updateItemQuantity, seedOrder1, seedOrderEmpty, Order.addItem,
      Order.calculateTotal, List.findIdx?]
  have h1 := (C7_total_is_sum_of_lines_plus_fee
    (seedOrderEmpty.addItem 1 "Tomate Orgânico" (17 / 2) 2 "kg") 2 "Alface Crespa" 3 3
    "unidade" 0).2.1
  have h2 := (C7_total_is_sum_of_lines_plus_fee seedOrder1 2 "Alface Crespa" 3 3
    "unidade" 0).2.2.2 _ hu
  refine ⟨?_, hu, h2⟩
  have h3 : seedOrder1.totalAmount = lineSum seedOrder1.items + seedOrder1.deliveryFee := h1
  rw [h3]
  simp [seedOrder1, seedOrderEmpty, Order.addItem, Order.calculateTotal, List.findIdx?, lineSum]
  norm_num

/-! ## Stock never negative -/

@[simp] theorem updateProductDoc_products (s : Store) (id : Id) (m : Product → Product) (k : Id) :
    (s.updateProductDoc id m).products k =
      if k = id then (s.products k).map m else s.products k := rfl

@[simp] theorem updateProductDoc_orders (s : Store) (id : Id) (m : Product → Product) :
    (s.updateProductDoc id m).orders = s.orders := rfl

@[simp] theorem updateOrderDoc_products (s : Store) (id : Id) (m : Order → Order) :
    (s.updateOrderDoc id m).products = s.products := rfl

@[simp] theorem updateOrderDoc_orders (s : Store) (id : Id) (m : Order → Order) (k : Id) :
    (s.updateOrderDoc id m).orders k =
      if k = id then (s.orders k).map m else s.orders k := rfl

@[simp] theorem addOrderDoc_products (s : Store) (id : Id) (o : Order) :
    (s.addOrderDoc id o).products = s.products := rfl

@[simp] theorem addOrderDoc_orders (s : Store) (id : Id) (o : Order) (k : Id) :
    (s.addOrderDoc id o).orders k = if k = id then some o else s.orders k := rfl

theorem StockNonneg.updateProductDoc {s : Store} (h : StockNonneg s) (id : Id)
    (m : Product → Product) (hm : ∀ p, s.products id = some p → 0 ≤ (m p).stock) :
    StockNonneg (s.updateProductDoc id m) := by
  intro k p hk
  rw [updateProductDoc_products] at hk
  split at hk
  · next hkid =>
    subst hkid
    cases hp : s.products k with
    | none => simp [hp] at hk
    | some p0 =>
      simp only [hp, Option.map_some', Option.some.injEq] at hk
      subst hk
      exact hm p0 hp
  · exact h k p hk

theorem releaseItems_orders (now : Time) (items : List OrderItem) :
    ∀ s : Store, (releaseItems s now items).orders = s.orders := by
  induction items with
  | nil => intro s; rfl
  | cons x rest ih =>
    intro s
    unfold releaseItems
    cases hp : Product.findById s x.productId with
    | none => simpa using ih s
    | some p => simp only [ih, Product.increaseStock, updateProductDoc_orders]

theorem releaseItems_stockNonneg (now : Time) (items : List OrderItem)
    (hq : ∀ item ∈ items, 0 ≤ item.quantity) :
    ∀ s : Store, StockNonneg s → StockNonneg (releaseItems s now items) := by
  induction items with
  | nil => intro s h; exact h
  | cons x rest ih =>
    intro s h
    have hx : 0 ≤ x.quantity := hq x (List.mem_cons_self _ _)
    have hrest : ∀ item ∈ rest, 0 ≤ item.quantity :=
      fun item hi => hq item (List.mem_cons_of_mem _ hi)
    unfold releaseItems
    cases hp : Product.findById s x.productId with
    | none => exact ih hrest s h
    | some p =>
      refine ih hrest _ (h.updateProductDoc _ _ ?_)
      intro _ _
      have : 0 ≤ p.stock := h _ _ hp
      show 0 ≤ p.stock + x.quantity
      omega

theorem reserveItems_missing {s : Store} {x : OrderItem} (now : Time) (rest : List OrderItem)
    (hp : s.products x.productId = none) :
    reserveItems s now (x :: rest) = (s, some "Cannot read properties of null") := by
  simp [reserveItems, Product.findById, hp]

theorem reserveItems_short {s : Store} {x : OrderItem} {p : Product} (now : Time)
    (rest : List OrderItem) (hp : s.products x.productId = some p) (hlt : p.stock < x.quantity) :
    reserveItems s now (x :: rest) =
      (s, some "Erro ao reduzir estoque: Estoque insuficiente") := by
  simp [reserveItems, Product.findById, hp, Product.reduceStock, hlt]

theorem reserveItems_enough {s : Store} {x : OrderItem} {p : Product} (now : Time)
    (rest : List OrderItem) (hp : s.products x.productId = some p) (hge : ¬ p.stock < x.quantity) :
    reserveItems s now (x :: rest) =
      reserveItems
        (s.updateProductDoc x.productId
          (fun d => { d with stock := p.stock - x.quantity, updatedAt := now })) now rest := by
  simp [reserveItems, Product.findById, hp, Product.reduceStock, hge]

theorem releaseItems_missing {s : Store} {x : OrderItem} (now : Time) (rest : List OrderItem)
    (hp : s.products x.productId = none) :
    releaseItems s now (x :: rest) = releaseItems s now rest := by
  simp [releaseItems, Product.findById, hp]

theorem releaseItems_found {s : Store} {x : OrderItem} {p : Product} (now : Time)
    (rest : List OrderItem) (hp : s.products x.productId = some p) :
    releaseItems s now (x :: rest) =
      releaseItems
        (s.updateProductDoc x.productId
          (fun d => { d with stock := p.stock + x.quantity, updatedAt := now })) now rest := by
  simp [releaseItems, Product.findById, hp, Product.increaseStock]

theorem reserveItems_orders (now : Time) (items : List OrderItem) :
    ∀ s : Store, (reserveItems s now items).1.orders = s.orders := by
  induction items with
  | nil => intro s; rfl
  | cons x rest ih =>
    intro s
    cases hp : s.products x.productId with
    | none => rw [reserveItems_missing now rest hp]
    | some p =>
      by_cases hlt : p.stock < x.quantity
      · rw [reserveItems_short now rest hp hlt]
      · rw [reserveItems_enough now rest hp hlt, ih, updateProductDoc_orders]

theorem reserveItems_stockNonneg (now : Time) (items : List OrderItem) :
    ∀ s : Store, StockNonneg s → StockNonneg (reserveItems s now items).1 := by
  induction items with
  | nil => intro s h; exact h
  | cons x rest ih =>
    intro s h
    cases hp : s.products x.productId with
    | none => rw [reserveItems_missing now rest hp]; exact h
    | some p =>
      by_cases hlt : p.stock < x.quantity
      · rw [reserveItems_short now rest hp hlt]; exact h
      · rw [reserveItems_enough now rest hp hlt]
        refine ih _ (h.updateProductDoc _ _ ?_)
        intro _ _
        show 0 ≤ p.stock - x.quantity
        omega

theorem checkItems_quantities (s : Store) (producerId : Id) :
    ∀ (lines : List ItemInput) (processed : List OrderItem),
      checkItems s producerId lines = .ok processed →
      ∀ item ∈ processed, ∃ line ∈ lines, line.quantity = some item.quantity := by
  intro lines
  induction lines with
  | nil =>
    intro processed h item hi
    simp only [checkItems, Except.ok.injEq] at h
    subst h
    cases hi
  | cons l rest ih =>
    intro processed h item hi
    unfold checkItems at h
    split at h
    · next pid q hpid hq =>
      split at h
      · cases h
      · next product hprod =>
        split at h
        · cases h
        · split at h
          · cases h
          · split at h
            · cases h
            · split at h
              · cases h
              · next rest1 hrest =>
                simp only [Except.ok.injEq] at h
                subst h
                rcases List.mem_cons.mp hi with rfl | hin
                · exact ⟨l, List.mem_cons_self _ _, hq⟩
                · obtain ⟨line, hl, hlq⟩ := ih rest1 hrest item hin
                  exact ⟨line, List.mem_cons_of_mem _ hl, hlq⟩
    · cases h

/-- The shape of `createOrder` on a valid request: the check loop decides between the
error of a line and storing the order followed by the reservation loop. -/
theorem createOrder_of_valid {s : Store} {now : Time} {newId : Id} {user : Actor}
    {body : OrderBody} {producer : Id} {lines : List ItemInput}
    (hv : (validateOrderData (orderDataOf user body)).isValid = true)
    (hp : body.producerId = some producer) (hi : body.items = some lines) :
    createOrder s now newId user body =
      match checkItems s producer lines with
      | .error r => (r, s)
      | .ok processed =>
        match reserveItems (s.addOrderDoc newId (newOrder now user producer body processed))
            now processed with
        | (s2, some e) => (⟨500, .internalError e⟩, s2)
        | (s2, none) => (⟨201, .orderCreated newId⟩, s2) := by
  simp [createOrder, hv, hp, hi]

/-- The store `createOrder` leaves: the one it found, or the one of the reservation loop
run on the processed items after the order was stored. -/
theorem createOrder_store (s : Store) (now : Time) (newId : Id) (user : Actor)
    (body : OrderBody) :
    (createOrder s now newId user body).2 = s ∨
      ∃ producer lines processed,
        (validateOrderData (orderDataOf user body)).isValid = true ∧
        body.producerId = some producer ∧ body.items = some lines ∧
        checkItems s producer lines = .ok processed ∧
        (createOrder s now newId user body).2 =
          (reserveItems (s.addOrderDoc newId (newOrder now user producer body processed))
            now processed).1 := by
  cases hv : (validateOrderData (orderDataOf user body)).isValid with
  | false => left; simp [createOrder, hv]
  | true =>
    obtain ⟨⟨producer, hp⟩, lines, hi, _, _⟩ := validateOrderData_valid hv
    simp only [orderDataOf] at hp hi
    rw [createOrder_of_valid hv hp hi]
    cases hc : checkItems s producer lines with
    | error r => left; rfl
    | ok processed =>
      right
      refine ⟨producer, lines, processed, rfl, hp, hi, hc, ?_⟩
      simp only
      rcases hr : reserveItems (s.addOrderDoc newId (newOrder now user producer body processed))
          now processed with ⟨s2, _ | e⟩ <;> rfl

theorem createOrder_preserves (s : Store) (now : Time) (newId : Id) (user : Actor)
    (body : OrderBody) (hs : StockNonneg s) (ho : QuantitiesNonneg s) :
    StockNonneg (createOrder s now newId user body).2 ∧
      QuantitiesNonneg (createOrder s now newId user body).2 := by
  rcases createOrder_store s now newId user body with h | ⟨producer, lines, processed, hv, hp,
    hi, hc, h⟩
  · rw [h]; exact ⟨hs, ho⟩
  · rw [h]
    refine ⟨reserveItems_stockNonneg now processed _ hs, ?_⟩
    intro id o hid item hitem
    rw [reserveItems_orders, addOrderDoc_orders] at hid
    split at hid
    · simp only [Option.some.injEq] at hid
      subst hid
      obtain ⟨line, hline, hq⟩ := checkItems_quantities s producer lines processed hc item hitem
      obtain ⟨_, lines1, hi1, _, hall⟩ := validateOrderData_valid hv
      simp only [orderDataOf, hi, Option.some.injEq] at hi1
      subst hi1
      obtain ⟨_, ⟨q, hq1, hpos⟩, _⟩ := hall line hline
      rw [hq] at hq1
      cases hq1
      exact le_of_lt hpos
    · exact ho id o hid item hitem

theorem QuantitiesNonneg.updateOrderDoc {s : Store} (h : QuantitiesNonneg s) (id : Id)
    (m : Order → Order) (hm : ∀ o, (m o).items = o.items) :
    ∀ k o, (s.updateOrderDoc id m).orders k = some o → ∀ item ∈ o.items, 0 ≤ item.quantity := by
  intro k o hk item hitem
  rw [updateOrderDoc_orders] at hk
  split at hk
  · cases ho : s.orders k with
    | none => simp [ho] at hk
    | some o0 =>
      simp only [ho, Option.map_some', Option.some.injEq] at hk
      subst hk
      rw [hm] at hitem
      exact h k o0 ho item hitem
  · exact h k o hk item hitem

theorem updateStatus_items {o o1 : Order} {status : String} {now : Time}
    (h : o.updateStatus status now = .ok o1) : o1.items = o.items := by
  unfold Order.updateStatus at h
  split at h
  · cases h
  · simp only [Except.ok.injEq] at h
    subst h
    split <;> rfl

theorem cancel_items {o o1 : Order} {now : Time} (h : o.cancel now = .ok o1) :
    o1.items = o.items := by
  unfold Order.cancel at h
  split at h
  · cases h
  · split at h
    · cases h
    · cases hu : o.updateStatus "cancelled" now with
      | error e => simp [hu] at h
      | ok o2 =>
        simp only [hu, Except.ok.injEq] at h
        subst h
        exact updateStatus_items hu

theorem updateOrderStatus_preserves (s : Store) (now : Time) (user : Actor) (id : Id)
    (status : Option String) (hs : StockNonneg s) (ho : QuantitiesNonneg s) :
    StockNonneg (updateOrderStatus s now user id status).2 ∧
      QuantitiesNonneg (updateOrderStatus s now user id status).2 := by
  unfold updateOrderStatus
  cases status with
  | none => exact ⟨hs, ho⟩
  | some st =>
    simp only
    split
    · exact ⟨hs, ho⟩
    · cases hf : Order.findById s id with
      | none => exact ⟨hs, ho⟩
      | some order =>
        simp only
        split
        · exact ⟨hs, ho⟩
        · cases hu : order.updateStatus st now with
          | error e => exact ⟨hs, ho⟩
          | ok order1 =>
            have hitems : order1.items = order.items := updateStatus_items hu
            have hq1 : QuantitiesNonneg (order1.writeStatus s id) :=
              ho.updateOrderDoc id _ (fun _ => rfl)
            have hs1 : StockNonneg (order1.writeStatus s id) := hs
            simp only
            split
            · refine ⟨releaseItems_stockNonneg now _ ?_ _ hs1, ?_⟩
              · rw [hitems]
                exact ho id order hf
              · intro k o hk
                rw [releaseItems_orders] at hk
                exact hq1 k o hk
            · exact ⟨hs1, hq1⟩

theorem cancelOrder_preserves (s : Store) (now : Time) (user : Actor) (id : Id)
    (hs : StockNonneg s) (ho : QuantitiesNonneg s) :
    StockNonneg (cancelOrder s now user id).2 ∧ QuantitiesNonneg (cancelOrder s now user id).2 := by
  unfold cancelOrder
  cases hf : Order.findById s id with
  | none => exact ⟨hs, ho⟩
  | some order =>
    simp only
    split
    · exact ⟨hs, ho⟩
    · cases hu : order.cancel now with
      | error e => exact ⟨hs, ho⟩
      | ok order1 =>
        have hitems : order1.items = order.items := cancel_items hu
        have hq1 : QuantitiesNonneg (order1.writeStatus s id) :=
          ho.updateOrderDoc id _ (fun _ => rfl)
        have hs1 : StockNonneg (order1.writeStatus s id) := hs
        refine ⟨releaseItems_stockNonneg now _ ?_ _ hs1, ?_⟩
        · rw [hitems]
          exact ho id order hf
        · intro k o hk
          rw [releaseItems_orders] at hk
          exact hq1 k o hk

theorem assignLogistics_preserves (s : Store) (now : Time) (user : Actor) (id : Id)
    (hs : StockNonneg s) (ho : QuantitiesNonneg s) :
    StockNonneg (assignLogistics s now user id).2 ∧
      QuantitiesNonneg (assignLogistics s now user id).2 := by
  unfold assignLogistics
  cases hf : Order.findById s id with
  | none => exact ⟨hs, ho⟩
  | some order =>
    simp only
    split
    · exact ⟨hs, ho⟩
    · split
      · exact ⟨hs, ho⟩
      · exact ⟨hs, ho.updateOrderDoc id _ (fun _ => rfl)⟩

theorem updateStock_preserves (s : Store) (now : Time) (user : Actor) (id : Id)
    (stock : Option Int) (hs : StockNonneg s) (ho : QuantitiesNonneg s) :
    StockNonneg (updateStock s now user id stock).2 ∧
      QuantitiesNonneg (updateStock s now user id stock).2 := by
  unfold updateStock
  cases stock with
  | none => exact ⟨hs, ho⟩
  | some n =>
    simp only
    split
    · exact ⟨hs, ho⟩
    · next hn =>
      cases hf : Product.findById s id with
      | none => exact ⟨hs, ho⟩
      | some product =>
        simp only
        split
        · exact ⟨hs, ho⟩
        · refine ⟨hs.updateProductDoc id _ ?_, ho⟩
          intro _ _
          show 0 ≤ n
          omega

theorem updateProduct_preserves (s : Store) (now : Time) (user : Actor) (id : Id)
    (body : ProductBody) (hs : StockNonneg s) (ho : QuantitiesNonneg s) :
    StockNonneg (updateProduct s now user id body).2 ∧
      QuantitiesNonneg (updateProduct s now user id body).2 := by
  unfold updateProduct
  cases hf : Product.findById s id with
  | none => exact ⟨hs, ho⟩
  | some product =>
    simp only
    split
    · exact ⟨hs, ho⟩
    · split
      · exact ⟨hs, ho⟩
      · next hvalid =>
        refine ⟨hs.updateProductDoc id _ ?_, ho⟩
        intro _ _
        simp only [Bool.not_eq_false, validateProductData, decide_eq_true_eq, productDataErrors,
          Product.toData] at hvalid
        show 0 ≤ body.stock.getD product.stock
        by_contra hneg
        have hlt : body.stock.getD product.stock < 0 := by omega
        simp [hlt] at hvalid

theorem step_preserves (s : Store) (r : Request) (hs : StockNonneg s)
    (ho : QuantitiesNonneg s) : StockNonneg (step s r).2 ∧ QuantitiesNonneg (step s r).2 := by
  cases r with
  | createOrder now newId user body => exact createOrder_preserves s now newId user body hs ho
  | updateOrderStatus now user id status =>
    exact updateOrderStatus_preserves s now user id status hs ho
  | cancelOrder now user id => exact cancelOrder_preserves s now user id hs ho
  | assignLogistics now user id => exact assignLogistics_preserves s now user id hs ho
  | updateStock now user id stock => exact updateStock_preserves s now user id stock hs ho
  | updateProduct now user id body => exact updateProduct_preserves s now user id body hs ho

/-- With the body fields typed as `Request` has them (an integer stock, integer
quantities), serving any requests keeps every stock and every stored quantity
non-negative. -/
theorem run_preserves (reqs : List Request) :
    ∀ s : Store, StockNonneg s → QuantitiesNonneg s →
      StockNonneg (run s reqs) ∧ QuantitiesNonneg (run s reqs) := by
  induction reqs with
  | nil => intro s hs ho; exact ⟨hs, ho⟩
  | cons r rest ih =>
    intro s hs ho
    have h := step_preserves s r hs ho
    exact ih _ h.1 h.2

/-! ## Reservation and release -/

theorem stockOf_updateProductDoc (s : Store) (id : Id) (m : Product → Product) (pid : Id) :
    stockOf (s.updateProductDoc id m) pid =
      if pid = id then (s.products pid).map (fun p => (m p).stock) else stockOf s pid := by
  unfold stockOf
  rw [updateProductDoc_products]
  split
  · cases s.products pid <;> rfl
  · rfl

theorem orderedQty_cons (x : OrderItem) (rest : List OrderItem) (pid : Id) :
    orderedQty (x :: rest) pid =
      (if x.productId = pid then x.quantity else 0) + orderedQty rest pid := by
  unfold orderedQty
  by_cases h : x.productId = pid <;> simp [List.filter_cons, h]

/-- The release loop adds to every product the quantity the items order of it. -/
theorem releaseItems_stock (now : Time) (items : List OrderItem) (pid : Id) :
    ∀ s : Store, stockOf (releaseItems s now items) pid =
      (stockOf s pid).map (fun n => n + orderedQty items pid) := by
  induction items with
  | nil =>
    intro s
    cases h : stockOf s pid <;> simp [releaseItems, orderedQty, h]
  | cons x rest ih =>
    intro s
    rw [orderedQty_cons]
    cases hp : s.products x.productId with
    | none =>
      rw [releaseItems_missing now rest hp, ih]
      by_cases hx : x.productId = pid
      · subst hx
        simp [stockOf, hp]
      · simp [hx]
    | some p =>
      rw [releaseItems_found now rest hp, ih, stockOf_updateProductDoc]
      by_cases hx : x.productId = pid
      · subst hx
        simp only [if_true, hp, Option.map_some', stockOf]
        congr 1
        ring
      · have hx1 : ¬ pid = x.productId := fun h => hx h.symm
        simp [hx, hx1]

/-- A reservation loop that does not throw takes from every product the quantity the
items order of it. -/
theorem reserveItems_stock (now : Time) (items : List OrderItem) (pid : Id) :
    ∀ s s1 : Store, reserveItems s now items = (s1, none) →
      stockOf s1 pid = (stockOf s pid).map (fun n => n - orderedQty items pid) := by
  induction items with
  | nil =>
    intro s s1 h
    simp only [reserveItems, Prod.mk.injEq, and_true] at h
    subst h
    cases h : stockOf s pid <;> simp [orderedQty, h]
  | cons x rest ih =>
    intro s s1 h
    rw [orderedQty_cons]
    cases hp : s.products x.productId with
    | none =>
      rw [reserveItems_missing now rest hp] at h
      simp at h
    | some p =>
      by_cases hlt : p.stock < x.quantity
      · rw [reserveItems_short now rest hp hlt] at h
        simp at h
      · rw [reserveItems_enough now rest hp hlt] at h
        rw [ih _ _ h, stockOf_updateProductDoc]
        by_cases hx : x.productId = pid
        · subst hx
          simp only [if_true, hp, Option.map_some', stockOf]
          congr 1
          ring
        · have hx1 : ¬ pid = x.productId := fun h => hx h.symm
          simp [hx, hx1]

/-- The check loop only answers with 404, 400 or 500. -/
theorem checkItems_error_code (s : Store) (producerId : Id) :
    ∀ (lines : List ItemInput) (r : Response), checkItems s producerId lines = .error r →
      r.code = 404 ∨ r.code = 400 ∨ r.code = 500 := by
  intro lines
  induction lines with
  | nil => intro r h; simp [checkItems] at h
  | cons l rest ih =>
    intro r h
    unfold checkItems at h
    split at h
    · split at h
      · cases h; simp
      · split at h
        · cases h; simp
        · split at h
          · cases h; simp
          · split at h
            · cases h; simp
            · split at h
              · next r1 hr1 =>
                cases h
                exact ih _ hr1
              · cases h
    · cases h; simp

/-- A created order: the request was valid, every line passed the check loop, the order
was stored under the new id and the reservation loop ran to its end. -/
theorem createOrder_created {s : Store} {now : Time} {newId : Id} {user : Actor}
    {body : OrderBody} (h : (createOrder s now newId user body).1.code = 201) :
    ∃ producer lines processed,
      (validateOrderData (orderDataOf user body)).isValid = true ∧
      body.producerId = some producer ∧ body.items = some lines ∧
      checkItems s producer lines = .ok processed ∧
      reserveItems (s.addOrderDoc newId (newOrder now user producer body processed)) now
        processed = ((createOrder s now newId user body).2, none) := by
  cases hv : (validateOrderData (orderDataOf user body)).isValid with
  | false => simp [createOrder, hv] at h
  | true =>
    obtain ⟨⟨producer, hp⟩, lines, hi, _, _⟩ := validateOrderData_valid hv
    simp only [orderDataOf] at hp hi
    rw [createOrder_of_valid hv hp hi] at h ⊢
    cases hc : checkItems s producer lines with
    | error r =>
      exfalso
      simp only [hc] at h
      rcases checkItems_error_code s producer lines r hc with h1 | h1 | h1 <;> omega
    | ok processed =>
      refine ⟨producer, lines, processed, rfl, hp, hi, hc, ?_⟩
      simp only [hc] at h ⊢
      rcases hr : reserveItems (s.addOrderDoc newId (newOrder now user producer body processed))
          now processed with ⟨s2, _ | e⟩
      · rfl
      · simp [hr] at h

/-- A served cancellation: the order exists, the caller may cancel it, `Order.cancel`
succeeds, and the store is the one of the release loop after the status write. -/
theorem cancelOrder_served {s : Store} {now : Time} {user : Actor} {id : Id}
    (h : (cancelOrder s now user id).1.code = 200) :
    ∃ order order1, s.orders id = some order ∧ canCancel user order = true ∧
      order.cancel now = .ok order1 ∧
      (cancelOrder s now user id).2 =
        releaseItems (order1.writeStatus s id) now order1.items := by
  unfold cancelOrder at h ⊢
  cases hf : Order.findById s id with
  | none => simp [hf] at h
  | some order =>
    simp only [hf] at h ⊢
    cases hc : canCancel user order with
    | false => simp [hc] at h
    | true =>
      cases hu : order.cancel now with
      | error e => simp [hc, hu] at h
      | ok order1 => exact ⟨order, order1, hf, hc, hu, by simp [hc, hu]⟩

/-- C5: a created order that is then cancelled through `cancelOrder`, while the products
and their stock are those the creation left and the order still has its created items,
puts every product's stock back to its value before the creation. -/
theorem C5_cancel_restores_stock (s0 : Store) (now : Time) (newId : Id) (user : Actor)
    (body : OrderBody) (s2 : Store) (now2 : Time) (actor : Actor)
    (hcreate : (createOrder s0 now newId user body).1.code = 201)
    (hstock : ∀ pid, stockOf s2 pid = stockOf (createOrder s0 now newId user body).2 pid)
    (hitems : (s2.orders newId).map (fun o => o.items) =
      ((createOrder s0 now newId user body).2.orders newId).map (fun o => o.items))
    (hcancel : (cancelOrder s2 now2 actor newId).1.code = 200) :
    ∀ pid, stockOf (cancelOrder s2 now2 actor newId).2 pid = stockOf s0 pid := by
  intro pid
  obtain ⟨producer, lines, processed, _, _, _, _, hres⟩ := createOrder_created hcreate
  obtain ⟨order, order1, ho, _, hc, hstore⟩ := cancelOrder_served hcancel
  have hcreated : (createOrder s0 now newId user body).2.orders newId =
      some (newOrder now user producer body processed) := by
    have h1 := reserveItems_orders now processed
      (s0.addOrderDoc newId (newOrder now user producer body processed))
    rw [hres] at h1
    simp only at h1
    rw [h1, addOrderDoc_orders, if_pos rfl]
  have hsame : order1.items = processed := by
    rw [cancel_items hc]
    rw [ho, hcreated] at hitems
    simpa [newOrder] using hitems
  have hreserved := reserveItems_stock now processed pid _ _ hres
  rw [hstore, releaseItems_stock, hsame]
  have hw : stockOf (order1.writeStatus s2 newId) pid = stockOf s2 pid := rfl
  rw [hw, hstock pid, hreserved]
  have h0 : stockOf (s0.addOrderDoc newId (newOrder now user producer body processed)) pid =
      stockOf s0 pid := rfl
  rw [h0]
  cases stockOf s0 pid with
  | none => rfl
  | some n => simp

/-- C5 on the seed order: creation takes the stocks from 50 and 30 to 48 and 27, the
producer confirms the order, the consumer cancels it, and the stocks are 50 and 30. -/
theorem C5_cancel_restores_stock_witness :
    stockOf seedStore 1 = some 50 ∧ stockOf seedStore 2 = some 30 ∧
      stockOf (createOrder seedStore 9 100 ⟨20, "consumer"⟩ seedBody).2 1 = some 48 ∧
      stockOf (createOrder seedStore 9 100 ⟨20, "consumer"⟩ seedBody).2 2 = some 27 ∧
      stockOf (cancelOrder
        (updateOrderStatus (createOrder seedStore 9 100 ⟨20, "consumer"⟩ seedBody).2 10
          ⟨10, "producer"⟩ 100 (some "confirmed")).2 11 ⟨20, "consumer"⟩ 100).2 1 = some 50 ∧
      stockOf (cancelOrder
        (updateOrderStatus (createOrder seedStore 9 100 ⟨20, "consumer"⟩ seedBody).2 10
          ⟨10, "producer"⟩ 100 (some "confirmed")).2 11 ⟨20, "consumer"⟩ 100).2 2 = some 30 := by
  have h := C5_cancel_restores_stock seedStore 9 100 ⟨20, "consumer"⟩ seedBody
    (updateOrderStatus (createOrder seedStore 9 100 ⟨20, "consumer"⟩ seedBody).2 10
      ⟨10, "producer"⟩ 100 (some "confirmed")).2 11 ⟨20, "consumer"⟩
    (by decide) (fun _ => rfl) (by rfl) (by decide)
  exact ⟨by decide, by decide, by decide, by decide, h 1, h 2⟩

/-! ## Order creation -/

theorem checkItems_cons_pass {s : Store} {producer : Id} {line : ItemInput} {pid : Id}
    {q : Int} {p : Product} (rest : List ItemInput) (hpid : line.productId = some pid)
    (hq : line.quantity = some q) (hp : s.products pid = some p)
    (ha : p.isAvailable = true) (hs : q ≤ p.stock) (ho : p.producerId = producer) :
    checkItems s producer (line :: rest) =
      match checkItems s producer rest with
      | .error r => .error r
      | .ok processed =>
        .ok ({ productId := pid, productName := p.name, price := p.price, quantity := q,
               unit := p.unit, subtotal := p.price * (q : ℚ) } :: processed) := by
  have hs1 : ¬ p.stock < q := not_lt.mpr hs
  rw [checkItems]
  simp [hpid, hq, Product.findById, hp, ha, hs1, ho]

/-- When every line passes, the check loop returns one snapshot per line, in order. -/
theorem checkItems_ok (s : Store) (producer : Id) :
    ∀ lines : List ItemInput, (∀ line ∈ lines, LinePasses s producer line) →
      ∃ processed, checkItems s producer lines = .ok processed ∧
        List.Forall₂ (Snapshot s) lines processed := by
  intro lines
  induction lines with
  | nil => intro _; exact ⟨[], rfl, List.Forall₂.nil⟩
  | cons l rest ih =>
    intro h
    obtain ⟨processed, hc, hf⟩ := ih (fun line hl => h line (List.mem_cons_of_mem _ hl))
    obtain ⟨pid, q, p, hpid, hq, hp, ha, hs, ho⟩ := h l (List.mem_cons_self _ _)
    refine ⟨{ productId := pid, productName := p.name, price := p.price, quantity := q,
              unit := p.unit, subtotal := p.price * (q : ℚ) } :: processed, ?_,
      List.Forall₂.cons ?_ hf⟩
    · rw [checkItems_cons_pass rest hpid hq hp ha hs ho, hc]
    · exact ⟨hpid, hq, p, hp, rfl, rfl, rfl, rfl⟩

/-- Lines that pass in front of a failing rest do not change the error. -/
theorem checkItems_error_after (s : Store) (producer : Id) (rest : List ItemInput)
    (r : Response) (hr : checkItems s producer rest = .error r) :
    ∀ pre : List ItemInput, (∀ line ∈ pre, LinePasses s producer line) →
      checkItems s producer (pre ++ rest) = .error r := by
  intro pre
  induction pre with
  | nil => intro _; exact hr
  | cons l pre ih =>
    intro h
    obtain ⟨pid, q, p, hpid, hq, hp, ha, hs, ho⟩ := h l (List.mem_cons_self _ _)
    rw [List.cons_append, checkItems_cons_pass _ hpid hq hp ha hs ho,
      ih (fun line hl => h line (List.mem_cons_of_mem _ hl))]

/-- The check loop on a first line that does not pass: the error of its first failing
check, in the order not found, unavailable, insufficient stock, other producer. -/
theorem checkItems_cons_fail {s : Store} {producer : Id} {line : ItemInput} {pid : Id}
    {q : Int} (rest : List ItemInput) (hpid : line.productId = some pid)
    (hq : line.quantity = some q) (hfail : ¬ LinePasses s producer line) :
    checkItems s producer (line :: rest) =
      .error (match s.products pid with
        | none => ⟨404, .productIdNotFound pid⟩
        | some p =>
          if p.isAvailable = false then ⟨400, .productUnavailable p.name⟩
          else if p.stock < q then ⟨400, .insufficientStock p.name p.stock⟩
          else ⟨400, .wrongProducer p.name⟩) := by
  rw [checkItems]
  simp only [hpid, hq, Product.findById]
  cases hp : s.products pid with
  | none => rfl
  | some p =>
    simp only
    by_cases ha : p.isAvailable = false
    · simp [ha]
    · by_cases hs : p.stock < q
      · simp [ha, hs]
      · have ho : p.producerId ≠ producer := by
          intro ho
          exact hfail ⟨pid, q, p, hpid, hq, hp, by simpa using ha, not_lt.mp hs, ho⟩
        simp [ha, hs, ho]

/-- C9: on a valid request whose lines before `line` all pass the checks and whose line
`line` does not, `createOrder` answers with the error of that line's first failing check
(404 product not found; else 400 unavailable; else 400 insufficient stock; else 400
product of another producer), stores no order and changes no product: the store is the
one it found. -/
theorem C9_first_failing_line_rejects (s : Store) (now : Time) (newId : Id) (user : Actor)
    (body : OrderBody) (producer : Id) (pre : List ItemInput) (line : ItemInput)
    (post : List ItemInput)
    (hvalid : (validateOrderData (orderDataOf user body)).isValid = true)
    (hproducer : body.producerId = some producer)
    (hlines : body.items = some (pre ++ line :: post))
    (hpre : ∀ l ∈ pre, LinePasses s producer l)
    (hfail : ¬ LinePasses s producer line) :
    (createOrder s now newId user body).2 = s ∧
      ∃ pid q, line.productId = some pid ∧ line.quantity = some q ∧
        (createOrder s now newId user body).1 =
          match s.products pid with
          | none => ⟨404, .productIdNotFound pid⟩
          | some p =>
            if p.isAvailable = false then ⟨400, .productUnavailable p.name⟩
            else if p.stock < q then ⟨400, .insufficientStock p.name p.stock⟩
            else ⟨400, .wrongProducer p.name⟩ := by
  obtain ⟨_, lines1, hi1, _, hall⟩ := validateOrderData_valid hvalid
  simp only [orderDataOf, hlines, Option.some.injEq] at hi1
  subst hi1
  obtain ⟨⟨pid, hpid⟩, ⟨q, hq, _⟩, _⟩ := hall line (by simp)
  have hc := checkItems_error_after s producer (line :: post) _
    (checkItems_cons_fail post hpid hq hfail) pre hpre
  rw [createOrder_of_valid hvalid hproducer hlines, hc]
  exact ⟨rfl, pid, q, hpid, hq, rfl⟩

/-- C9 on the seed store: the second line asks for 40 of product 2, of which 30 are in
stock; the answer is 400 'Estoque insuficiente' and the store is unchanged. -/
theorem C9_first_failing_line_rejects_witness :
    (createOrder seedStore 9 100 ⟨20, "consumer"⟩ shortStockBody).1 =
        ⟨400, .insufficientStock "Alface Crespa" 30⟩ ∧
      (createOrder seedStore 9 100 ⟨20, "consumer"⟩ shortStockBody).2 = seedStore := by
  have hpre : ∀ l ∈ [({ productId := some 1, quantity := some 2, price := some 9 } : ItemInput)],
      LinePasses seedStore 10 l := by
    intro l hl
    rw [List.mem_singleton] at hl
    subst hl
    exact ⟨1, 2, prodA, rfl, rfl, rfl, rfl, by decide, rfl⟩
  have hfail : ¬ LinePasses seedStore 10
      { productId := some 2, quantity := some 40, price := some 3 } := by
    rintro ⟨pid, q, p, hpid, hq, hp, _, hs, _⟩
    cases hpid
    cases hq
    have hp1 : p = prodB := by simpa [seedStore] using hp.symm
    subst hp1
    revert hs
    decide
  have h := C9_first_failing_line_rejects seedStore 9 100 ⟨20, "consumer"⟩ shortStockBody 10
    [{ productId := some 1, quantity := some 2, price := some 9 }]
    { productId := some 2, quantity := some 40, price := some 3 } [] (by decide) rfl rfl
    hpre hfail
  exact ⟨by decide, h.1⟩

theorem foldl_subtotal (items : List OrderItem) (acc : ℚ) :
    items.foldl (fun a item => a + item.subtotal) acc =
      acc + (items.map (fun item => item.subtotal)).sum := by
  induction items generalizing acc with
  | nil => simp
  | cons x rest ih =>
    simp only [List.foldl_cons, ih, List.map_cons, List.sum_cons]
    ring

theorem forall₂_mem_right {α β : Type} {R : α → β → Prop} {l1 : List α} {l2 : List β}
    (h : List.Forall₂ R l1 l2) : ∀ b ∈ l2, ∃ a ∈ l1, R a b := by
  induction h with
  | nil => intro b hb; cases hb
  | cons hr _ ih =>
    intro b hb
    rcases List.mem_cons.mp hb with rfl | hin
    · exact ⟨_, List.mem_cons_self _ _, hr⟩
    · obtain ⟨a, ha, hab⟩ := ih b hin
      exact ⟨a, List.mem_cons_of_mem _ ha, hab⟩

theorem snapshot_productIds {s : Store} {lines : List ItemInput} {processed : List OrderItem}
    (h : List.Forall₂ (Snapshot s) lines processed) :
    lines.map (fun l => l.productId) = (processed.map (fun item => item.productId)).map some := by
  induction h with
  | nil => rfl
  | cons hr _ ih =>
    simp only [List.map_cons, ih, hr.1]

theorem reserveItems_succeeds (now : Time) (items : List OrderItem) :
    ∀ s : Store, (items.map (fun item => item.productId)).Nodup →
      (∀ item ∈ items, ∃ p, s.products item.productId = some p ∧ item.quantity ≤ p.stock) →
      ∃ s1, reserveItems s now items = (s1, none) := by
  induction items with
  | nil => intro s _ _; exact ⟨s, rfl⟩
  | cons x rest ih =>
    intro s hnd h
    obtain ⟨p, hp, hs⟩ := h x (List.mem_cons_self _ _)
    rw [reserveItems_enough now rest hp (not_lt.mpr hs)]
    rw [List.map_cons, List.nodup_cons] at hnd
    refine ih _ hnd.2 ?_
    intro item hitem
    obtain ⟨p1, hp1, hs1⟩ := h item (List.mem_cons_of_mem _ hitem)
    have hne : item.productId ≠ x.productId := by
      intro heq
      exact hnd.1 (heq ▸ List.mem_map_of_mem (fun item => item.productId) hitem)
    exact ⟨p1, by rw [updateProductDoc_products, if_neg hne]; exact hp1, hs1⟩

theorem reserveItems_products_other (now : Time) (items : List OrderItem) (pid : Id)
    (hother : ∀ item ∈ items, item.productId ≠ pid) :
    ∀ s : Store, (reserveItems s now items).1.products pid = s.products pid := by
  induction items with
  | nil => intro s; rfl
  | cons x rest ih =>
    intro s
    have hx : ¬ pid = x.productId := fun h => hother x (List.mem_cons_self _ _) h.symm
    have hrest : ∀ item ∈ rest, item.productId ≠ pid :=
      fun item hi => hother item (List.mem_cons_of_mem _ hi)
    cases hp : s.products x.productId with
    | none => rw [reserveItems_missing now rest hp]
    | some p =>
      by_cases hlt : p.stock < x.quantity
      · rw [reserveItems_short now rest hp hlt]
      · rw [reserveItems_enough now rest hp hlt, ih hrest, updateProductDoc_products, if_neg hx]

theorem orderedQty_of_not_mem (items : List OrderItem) (pid : Id)
    (h : ∀ item ∈ items, item.productId ≠ pid) : orderedQty items pid = 0 := by
  induction items with
  | nil => rfl
  | cons x rest ih =>
    rw [orderedQty_cons, if_neg (h x (List.mem_cons_self _ _)),
      ih (fun item hi => h item (List.mem_cons_of_mem _ hi))]
    rfl

theorem orderedQty_of_nodup (items : List OrderItem)
    (hnd : (items.map (fun item => item.productId)).Nodup) :
    ∀ item ∈ items, orderedQty items item.productId = item.quantity := by
  induction items with
  | nil => intro item hi; cases hi
  | cons x rest ih =>
    intro item hi
    rw [List.map_cons, List.nodup_cons] at hnd
    rw [orderedQty_cons]
    rcases List.mem_cons.mp hi with rfl | hin
    · rw [if_pos rfl, orderedQty_of_not_mem]
      · ring
      · intro other hother heq
        exact hnd.1 (heq ▸ List.mem_map_of_mem (fun item => item.productId) hother)
    · have hne : x.productId ≠ item.productId := by
        intro heq
        exact hnd.1 (heq ▸ List.mem_map_of_mem (fun item => item.productId) hin)
      rw [if_neg hne, ih hnd.2 item hin]
      ring

/-- C8: a valid request whose lines name distinct products that all pass the checks
(existing, available, of the target producer, stock at least the quantity) is answered
201; the order stored under the new id has status pending, the caller as consumer, the
target producer, one item per line in request order carrying the product's current name,
price and unit with subtotal price × quantity, and total the sum of the subtotals plus
the delivery fee; every ordered product's stock is lowered by exactly the ordered
quantity and every other product is unchanged. -/
theorem C8_created_order_and_reserved_stock (s : Store) (now : Time) (newId : Id)
    (user : Actor) (body : OrderBody) (producer : Id) (lines : List ItemInput)
    (hvalid : (validateOrderData (orderDataOf user body)).isValid = true)
    (hproducer : body.producerId = some producer) (hlines : body.items = some lines)
    (hdistinct : (lines.map (fun l => l.productId)).Nodup)
    (hpass : ∀ line ∈ lines, LinePasses s producer line) :
    (createOrder s now newId user body).1 = ⟨201, .orderCreated newId⟩ ∧
      ∃ o, (createOrder s now newId user body).2.orders newId = some o ∧
        o.status = "pending" ∧ o.consumerId = user.id ∧ o.producerId = producer ∧
        List.Forall₂ (Snapshot s) lines o.items ∧
        o.deliveryFee = body.deliveryFee.getD 0 ∧
        o.totalAmount = (o.items.map (fun item => item.subtotal)).sum + o.deliveryFee ∧
        (∀ item ∈ o.items,
          stockOf (createOrder s now newId user body).2 item.productId =
            (stockOf s item.productId).map (fun n => n - item.quantity)) ∧
        (∀ pid, (∀ item ∈ o.items, item.productId ≠ pid) →
          (createOrder s now newId user body).2.products pid = s.products pid) := by
  obtain ⟨processed, hc, hsnap⟩ := checkItems_ok s producer lines hpass
  have hnd : (processed.map (fun item => item.productId)).Nodup := by
    rw [snapshot_productIds hsnap] at hdistinct
    exact List.Nodup.of_map some hdistinct
  have henough : ∀ item ∈ processed,
      ∃ p, s.products item.productId = some p ∧ item.quantity ≤ p.stock := by
    intro item hitem
    obtain ⟨line, hline, hpid, hq, _⟩ := forall₂_mem_right hsnap item hitem
    obtain ⟨pid, q, p, hpid1, hq1, hp, _, hs, _⟩ := hpass line hline
    rw [hpid] at hpid1
    rw [hq] at hq1
    cases hpid1
    cases hq1
    exact ⟨p, hp, hs⟩
  obtain ⟨s1, hres⟩ := reserveItems_succeeds now processed
    (s.addOrderDoc newId (newOrder now user producer body processed)) hnd henough
  have hout : createOrder s now newId user body = (⟨201, .orderCreated newId⟩, s1) := by
    rw [createOrder_of_valid hvalid hproducer hlines, hc]
    simp only [hres]
  have hs1 : s1 = (reserveItems (s.addOrderDoc newId (newOrder now user producer body processed))
      now processed).1 := by rw [hres]
  rw [hout]
  refine ⟨rfl, newOrder now user producer body processed, ?_, rfl, rfl, rfl, hsnap, rfl, ?_,
    ?_, ?_⟩
  · simp only [hs1, reserveItems_orders, addOrderDoc_orders, if_true]
  · simp only [newOrder, foldl_subtotal, zero_add]
  · intro item hitem
    have h := reserveItems_stock now processed item.productId _ _ hres
    rw [orderedQty_of_nodup processed hnd item hitem] at h
    exact h
  · intro pid hother
    simp only [hs1]
    rw [reserveItems_products_other now processed pid hother]
    rfl

/-- C8 on the seed scenario: 2 × A at 8.50 (stock 50) and 3 × B at 3.00 (stock 30) with
fee 5.00 is answered 201; the order is pending with total 31.00 and the stocks are 48
and 27. -/
theorem C8_created_order_and_reserved_stock_witness :
    (createOrder seedStore 9 100 ⟨20, "consumer"⟩ seedBody).1 = ⟨201, .orderCreated 100⟩ ∧
      statusOf (createOrder seedStore 9 100 ⟨20, "consumer"⟩ seedBody).2 100 = some "pending" ∧
      ((createOrder seedStore 9 100 ⟨20, "consumer"⟩ seedBody).2.orders 100).map
        (fun o => o.totalAmount) = some 31 ∧
      stockOf (createOrder seedStore 9 100 ⟨20, "consumer"⟩ seedBody).2 1 = some 48 ∧
      stockOf (createOrder seedStore 9 100 ⟨20, "consumer"⟩ seedBody).2 2 = some 27 := by
  have hpass : ∀ line ∈ [({ productId := some 1, quantity := some 2, price := some 9 } : ItemInput),
      { productId := some 2, quantity := some 3, price := some 3 }],
      LinePasses seedStore 10 line := by
    intro line hl
    simp only [List.mem_cons, List.mem_singleton, List.not_mem_nil, or_false] at hl
    rcases hl with rfl | rfl
    · exact ⟨1, 2, prodA, rfl, rfl, rfl, rfl, by decide, rfl⟩
    · exact ⟨2, 3, prodB, rfl, rfl, rfl, rfl, by decide, rfl⟩
  have h := C8_created_order_and_reserved_stock seedStore 9 100 ⟨20, "consumer"⟩ seedBody 10
    [{ productId := some 1, quantity := some 2, price := some 9 },
     { productId := some 2, quantity := some 3, price := some 3 }]
    (by decide) rfl rfl (by decide) hpass
  refine ⟨h.1, by decide, ?_, by decide, by decide⟩
  have ht : ((createOrder seedStore 9 100 ⟨20, "consumer"⟩ seedBody).2.orders 100).map
      (fun o => o.totalAmount) =
      some (0 + 17 / 2 * ((2 : Int) : ℚ) + 3 * ((3 : Int) : ℚ) + 5) := by
    rfl
  rw [ht]
  norm_num

/-! ## Served status requests and logistics assignment -/

theorem RoleAllows.valid {user : Actor} {order : Order} {status : String}
    (h : RoleAllows user order status) : status ∈ validStatuses ∧ status ≠ "" := by
  unfold RoleAllows at h
  rcases h with ⟨_, _, h | h | h⟩ | ⟨_, _, h | h⟩ | ⟨_, _, h, _⟩ <;> subst h <;> decide

/-- The order a served status request leaves in memory and writes. -/
theorem updateStatus_of_valid (order : Order) {status : String} (now : Time)
    (h : status ∈ validStatuses) :
    order.updateStatus status now =
      .ok { order with
            status := status, updatedAt := now,
            deliveredAt := if status = "delivered" then some now else order.deliveredAt } := by
  unfold Order.updateStatus
  rw [if_neg (not_not.mpr h)]
  by_cases hd : status = "delivered" <;> simp [hd]

/-- A status request the permission switch admits, other than cancelled, is answered 200
and writes the status, the update time and the delivery time into the stored order. -/
theorem updateOrderStatus_served {s : Store} {user : Actor} {id : Id} {status : String}
    {order : Order} (now : Time) (ho : s.orders id = some order)
    (hr : RoleAllows user order status) (hnc : status ≠ "cancelled") :
    updateOrderStatus s now user id (some status) =
      (⟨200, .statusUpdated id status⟩,
        s.updateOrderDoc id (fun d =>
          { d with
            status := status, updatedAt := now,
            deliveredAt := if status = "delivered" then some now else order.deliveredAt })) := by
  have hcu : canUpdate user order status = true := (canUpdate_iff user order status).mpr hr
  unfold updateOrderStatus
  simp only [hr.valid.2, if_false, Order.findById, ho, hcu, Bool.true_eq_false,
    updateStatus_of_valid order now hr.valid.1, hnc]
  rfl

/-- A served cancellation request through `updateOrderStatus`: the status is written and
the release loop runs over the order's items. -/
theorem updateOrderStatus_cancelled {s : Store} {user : Actor} {id : Id} {order : Order}
    (now : Time) (ho : s.orders id = some order) (hr : RoleAllows user order "cancelled") :
    updateOrderStatus s now user id (some "cancelled") =
      (⟨200, .statusUpdated id "cancelled"⟩,
        releaseItems
          (s.updateOrderDoc id (fun d =>
            { d with status := "cancelled", updatedAt := now, deliveredAt := order.deliveredAt }))
          now order.items) := by
  have hcu : canUpdate user order "cancelled" = true :=
    (canUpdate_iff user order "cancelled").mpr hr
  unfold updateOrderStatus
  simp only [Order.findById, ho, hcu, Bool.true_eq_false,
    updateStatus_of_valid order now hr.valid.1]
  rfl

/-- The three outcomes of `assignLogistics` on a stored order. -/
theorem assignLogistics_cases {s : Store} {id : Id} {order : Order} (now : Time)
    (user : Actor) (ho : s.orders id = some order) :
    (order.status ≠ "ready" → assignLogistics s now user id = (⟨400, .notReady⟩, s)) ∧
      (order.status = "ready" → order.logisticsId ≠ none →
        assignLogistics s now user id = (⟨400, .alreadyAssigned⟩, s)) ∧
      (order.status = "ready" → order.logisticsId = none →
        assignLogistics s now user id =
          (⟨200, .logisticsAssigned id user.id⟩,
            s.updateOrderDoc id
              (fun d => { d with logisticsId := some user.id, updatedAt := now }))) := by
  refine ⟨?_, ?_, ?_⟩
  · intro h
    simp [assignLogistics, Order.findById, ho, h]
  · intro h hl
    have hs : order.logisticsId.isSome = true := by
      cases hx : order.logisticsId with
      | none => exact absurd hx hl
      | some v => rfl
    simp [assignLogistics, Order.findById, ho, h, hs]
  · intro h hl
    simp [assignLogistics, Order.findById, ho, h, hl]
    rfl

theorem updateOrderDoc_self (s : Store) (id : Id) (m : Order → Order) {order : Order}
    (ho : s.orders id = some order) : (s.updateOrderDoc id m).orders id = some (m order) := by
  rw [updateOrderDoc_orders, if_pos rfl, ho]
  rfl

/-- A served status request (other than cancelled): the answer and the stored order. -/
theorem updateOrderStatus_served_order {s : Store} {user : Actor} {id : Id} {status : String}
    {order : Order} (now : Time) (ho : s.orders id = some order)
    (hr : RoleAllows user order status) (hnc : status ≠ "cancelled") :
    (updateOrderStatus s now user id (some status)).1 = ⟨200, .statusUpdated id status⟩ ∧
      (updateOrderStatus s now user id (some status)).2.orders id =
        some { order with
               status := status, updatedAt := now,
               deliveredAt := if status = "delivered" then some now else order.deliveredAt } := by
  rw [updateOrderStatus_served now ho hr hnc]
  exact ⟨rfl, updateOrderDoc_self s id _ ho⟩

/-- A served assignment: the answer and the stored order. -/
theorem assignLogistics_served_order {s : Store} {id : Id} {order : Order} (now : Time)
    (user : Actor) (ho : s.orders id = some order) (hready : order.status = "ready")
    (hun : order.logisticsId = none) :
    (assignLogistics s now user id).1 = ⟨200, .logisticsAssigned id user.id⟩ ∧
      (assignLogistics s now user id).2.orders id =
        some { order with logisticsId := some user.id, updatedAt := now } := by
  rw [(assignLogistics_cases now user ho).2.2 hready hun]
  exact ⟨rfl, updateOrderDoc_self s id _ ho⟩

/-- C11: on a pending order of producer `producer` with no logistics actor, the requests
confirmed, preparing, ready by the producer, then assignLogistics, in_delivery, delivered
by the courier `courier`, are each answered 200, and the stored order ends with status
delivered, the courier as `logisticsId` and `deliveredAt` the time of the last request;
its other fields except `updatedAt` are as before. -/
theorem C11_delivery_flow_accepted (s : Store) (id : Id) (order : Order)
    (producer courier : Actor) (t1 t2 t3 t4 t5 t6 : Time)
    (ho : s.orders id = some order) (_hpending : order.status = "pending")
    (hP : producer.role = "producer") (hown : order.producerId = producer.id)
    (hL : courier.role = "logistics") (hun : order.logisticsId = none) :
    (responses s (deliveryFlow id producer courier t1 t2 t3 t4 t5 t6)).map
        (fun r => r.code) = [200, 200, 200, 200, 200, 200] ∧
      (run s (deliveryFlow id producer courier t1 t2 t3 t4 t5 t6)).orders id =
        some { order with
               status := "delivered", logisticsId := some courier.id, updatedAt := t6,
               deliveredAt := some t6 } := by
  obtain ⟨c1, o1⟩ := @updateOrderStatus_served_order s producer id "confirmed" order t1 ho
    (Or.inl ⟨hP, hown, Or.inl rfl⟩) (by decide)
  obtain ⟨c2, o2⟩ := @updateOrderStatus_served_order _ producer id "preparing" _ t2 o1
    (Or.inl ⟨hP, hown, Or.inr (Or.inl rfl)⟩) (by decide)
  obtain ⟨c3, o3⟩ := @updateOrderStatus_served_order _ producer id "ready" _ t3 o2
    (Or.inl ⟨hP, hown, Or.inr (Or.inr rfl)⟩) (by decide)
  obtain ⟨c4, o4⟩ := assignLogistics_served_order t4 courier o3 rfl hun
  obtain ⟨c5, o5⟩ := @updateOrderStatus_served_order _ courier id "in_delivery" _ t5 o4
    (Or.inr (Or.inl ⟨hL, rfl, Or.inl rfl⟩)) (by decide)
  obtain ⟨c6, o6⟩ := @updateOrderStatus_served_order _ courier id "delivered" _ t6 o5
    (Or.inr (Or.inl ⟨hL, rfl, Or.inr rfl⟩)) (by decide)
  refine ⟨?_, ?_⟩
  · simp only [deliveryFlow, responses, step, List.map_cons, List.map_nil, c1, c2, c3, c4, c5, c6]
  · simp only [deliveryFlow, run, step]
    rw [o6]
    simp

/-- C11 on the demo order: producer 10 and courier 30 take the pending order 1 through
the six requests; every answer is 200 and the order ends delivered by courier 30. -/
theorem C11_delivery_flow_accepted_witness :
    (responses (demoStore 47 "pending" none none)
        (deliveryFlow 1 ⟨10, "producer"⟩ ⟨30, "logistics"⟩ 2 3 4 5 6 7)).map
        (fun r => r.code) = [200, 200, 200, 200, 200, 200] ∧
      (run (demoStore 47 "pending" none none)
        (deliveryFlow 1 ⟨10, "producer"⟩ ⟨30, "logistics"⟩ 2 3 4 5 6 7)).orders 1 =
        some { demoOrder "pending" none none with
               status := "delivered", logisticsId := some 30, updatedAt := 7,
               deliveredAt := some 7 } :=
  C11_delivery_flow_accepted (demoStore 47 "pending" none none) 1 (demoOrder "pending" none none)
    ⟨10, "producer"⟩ ⟨30, "logistics"⟩ 2 3 4 5 6 7 rfl rfl rfl rfl rfl rfl

/-- C12: on a stored order, `assignLogistics` is answered 200 exactly when the status is
ready and `logisticsId` is unset; it then writes the caller as `logisticsId` (and the
update time) and nothing else of the order; a status other than ready is answered with
the not-ready error and a ready order with a logistics actor with the already-assigned
error, the store staying as it was in both cases. -/
theorem C12_assign_logistics_outcomes (s : Store) (now : Time) (user : Actor) (id : Id)
    (order : Order) (ho : s.orders id = some order) :
    ((assignLogistics s now user id).1.code = 200 ↔
        order.status = "ready" ∧ order.logisticsId = none) ∧
      (order.status = "ready" → order.logisticsId = none →
        (assignLogistics s now user id).2.orders id =
            some { order with logisticsId := some user.id, updatedAt := now } ∧
          (assignLogistics s now user id).2.products = s.products) ∧
      (order.status ≠ "ready" → assignLogistics s now user id = (⟨400, .notReady⟩, s)) ∧
      (order.status = "ready" → order.logisticsId ≠ none →
        assignLogistics s now user id = (⟨400, .alreadyAssigned⟩, s)) := by
  obtain ⟨h1, h2, h3⟩ := assignLogistics_cases now user ho
  refine ⟨?_, ?_, h1, h2⟩
  · constructor
    · intro hc
      by_cases hr : order.status = "ready"
      · by_cases hl : order.logisticsId = none
        · exact ⟨hr, hl⟩
        · rw [h2 hr hl] at hc
          simp at hc
      · rw [h1 hr] at hc
        simp at hc
    · rintro ⟨hr, hl⟩
      rw [h3 hr hl]
  · intro hr hl
    rw [h3 hr hl]
    exact ⟨updateOrderDoc_self s id _ ho, rfl⟩

/-- C12 on the demo order: courier 30 assigns itself to the ready, unassigned order 1. -/
theorem C12_assign_logistics_outcomes_witness :
    (assignLogistics (demoStore 47 "ready" none none) 5 ⟨30, "logistics"⟩ 1).1.code = 200 ∧
      (assignLogistics (demoStore 47 "ready" none none) 5 ⟨30, "logistics"⟩ 1).2.orders 1 =
        some { demoOrder "ready" none none with logisticsId := some 30, updatedAt := 5 } ∧
      assignLogistics (demoStore 47 "pending" none none) 5 ⟨30, "logistics"⟩ 1 =
        (⟨400, .notReady⟩, demoStore 47 "pending" none none) ∧
      assignLogistics (demoStore 47 "ready" (some 31) none) 5 ⟨30, "logistics"⟩ 1 =
        (⟨400, .alreadyAssigned⟩, demoStore 47 "ready" (some 31) none) := by
  have h := C12_assign_logistics_outcomes (demoStore 47 "ready" none none) 5 ⟨30, "logistics"⟩ 1
    (demoOrder "ready" none none) rfl
  have hp := C12_assign_logistics_outcomes (demoStore 47 "pending" none none) 5
    ⟨30, "logistics"⟩ 1 (demoOrder "pending" none none) rfl
  have ha := C12_assign_logistics_outcomes (demoStore 47 "ready" (some 31) none) 5
    ⟨30, "logistics"⟩ 1 (demoOrder "ready" (some 31) none) rfl
  exact ⟨h.1.mpr ⟨rfl, rfl⟩, (h.2.1 rfl rfl).1, hp.2.2.1 (by decide), ha.2.2.2 rfl (by decide)⟩

/-! ## The logistics actor of an order -/

theorem logisticsOf_updateOrderDoc (s : Store) (id k : Id) (m : Order → Order)
    (hm : ∀ o, (m o).logisticsId = o.logisticsId) :
    logisticsOf (s.updateOrderDoc id m) k = logisticsOf s k := by
  unfold logisticsOf
  rw [updateOrderDoc_orders]
  split
  · cases s.orders k with
    | none => rfl
    | some o => simp [hm]
  · rfl

theorem logisticsOf_of_orders {s s1 : Store} (h : s1.orders = s.orders) (k : Id) :
    logisticsOf s1 k = logisticsOf s k := by
  unfold logisticsOf
  rw [h]

theorem updateStatus_logistics {o o1 : Order} {status : String} {now : Time}
    (h : o.updateStatus status now = .ok o1) : o1.logisticsId = o.logisticsId := by
  unfold Order.updateStatus at h
  split at h
  · cases h
  · simp only [Except.ok.injEq] at h
    subst h
    split <;> rfl

/-- A status request never touches the logistics actor of any order. -/
theorem updateOrderStatus_logistics (s : Store) (now : Time) (user : Actor) (id : Id)
    (status : Option String) (k : Id) :
    logisticsOf (updateOrderStatus s now user id status).2 k = logisticsOf s k := by
  unfold updateOrderStatus
  cases status with
  | none => rfl
  | some st =>
    simp only
    split
    · rfl
    · cases hf : Order.findById s id with
      | none => rfl
      | some order =>
        simp only
        split
        · rfl
        · cases hu : order.updateStatus st now with
          | error e => rfl
          | ok order1 =>
            have hw : logisticsOf (order1.writeStatus s id) k = logisticsOf s k :=
              logisticsOf_updateOrderDoc s id k _ (fun _ => rfl)
            simp only
            split
            · rw [logisticsOf_of_orders (releaseItems_orders now _ _), hw]
            · exact hw

/-- A cancellation never touches the logistics actor of any order. -/
theorem cancelOrder_logistics (s : Store) (now : Time) (user : Actor) (id : Id) (k : Id) :
    logisticsOf (cancelOrder s now user id).2 k = logisticsOf s k := by
  unfold cancelOrder
  cases hf : Order.findById s id with
  | none => rfl
  | some order =>
    simp only
    split
    · rfl
    · cases hu : order.cancel now with
      | error e => rfl
      | ok order1 =>
        simp only
        rw [logisticsOf_of_orders (releaseItems_orders now _ _)]
        exact logisticsOf_updateOrderDoc s id k _ (fun _ => rfl)

/-- An assignment leaves an order that has a logistics actor as it is. -/
theorem assignLogistics_logistics (s : Store) (now : Time) (user : Actor) (id : Id) (k : Id)
    (courier : Id) (hk : logisticsOf s k = some (some courier)) :
    logisticsOf (assignLogistics s now user id).2 k = some (some courier) := by
  by_cases hid : k = id
  · subst hid
    cases ho : s.orders k with
    | none => simp [logisticsOf, ho] at hk
    | some order =>
      have hl : order.logisticsId = some courier := by
        simpa [logisticsOf, ho] using hk
      obtain ⟨h1, h2, _⟩ := assignLogistics_cases now user ho
      by_cases hr : order.status = "ready"
      · rw [h2 hr (by simp [hl])]
        exact hk
      · rw [h1 hr]
        exact hk
  · unfold assignLogistics
    cases hf : Order.findById s id with
    | none => exact hk
    | some order =>
      simp only
      split
      · exact hk
      · split
        · exact hk
        · unfold Order.writeLogistics logisticsOf
          rw [updateOrderDoc_orders, if_neg hid]
          exact hk

/-- Creating an order under another id leaves the stored order `k` as it is. -/
theorem createOrder_orders_other (s : Store) (now : Time) (newId : Id) (user : Actor)
    (body : OrderBody) (k : Id) (hk : newId ≠ k) :
    (createOrder s now newId user body).2.orders k = s.orders k := by
  rcases createOrder_store s now newId user body with h | ⟨producer, lines, processed, _, _,
    _, _, h⟩
  · rw [h]
  · rw [h, reserveItems_orders, addOrderDoc_orders, if_neg (fun hx => hk hx.symm)]

theorem updateStock_orders (s : Store) (now : Time) (user : Actor) (id : Id)
    (stock : Option Int) : (updateStock s now user id stock).2.orders = s.orders := by
  unfold updateStock
  cases stock with
  | none => rfl
  | some n =>
    simp only
    split
    · rfl
    · cases hf : Product.findById s id with
      | none => rfl
      | some product =>
        simp only
        split <;> rfl

theorem updateProduct_orders (s : Store) (now : Time) (user : Actor) (id : Id)
    (body : ProductBody) : (updateProduct s now user id body).2.orders = s.orders := by
  unfold updateProduct
  cases hf : Product.findById s id with
  | none => rfl
  | some product =>
    simp only
    split
    · rfl
    · split <;> rfl

/-- No request changes the logistics actor of an order that has one, as long as the
store does not generate the order's id again. -/
theorem step_logistics (s : Store) (r : Request) (k : Id) (courier : Id)
    (hk : logisticsOf s k = some (some courier)) (hfresh : r.generatedId ≠ some k) :
    logisticsOf (step s r).2 k = some (some courier) := by
  cases r with
  | createOrder now newId user body =>
    have hne : newId ≠ k := fun h => hfresh (by rw [h]; rfl)
    show logisticsOf (createOrder s now newId user body).2 k = _
    unfold logisticsOf
    rw [createOrder_orders_other s now newId user body k hne]
    exact hk
  | updateOrderStatus now user id status =>
    show logisticsOf (updateOrderStatus s now user id status).2 k = _
    rw [updateOrderStatus_logistics]
    exact hk
  | cancelOrder now user id =>
    show logisticsOf (cancelOrder s now user id).2 k = _
    rw [cancelOrder_logistics]
    exact hk
  | assignLogistics now user id => exact assignLogistics_logistics s now user id k courier hk
  | updateStock now user id stock =>
    show logisticsOf (updateStock s now user id stock).2 k = _
    rw [logisticsOf_of_orders (updateStock_orders s now user id stock)]
    exact hk
  | updateProduct now user id body =>
    show logisticsOf (updateProduct s now user id body).2 k = _
    rw [logisticsOf_of_orders (updateProduct_orders s now user id body)]
    exact hk

theorem run_logistics (reqs : List Request) (k : Id) (courier : Id) :
    ∀ s : Store, logisticsOf s k = some (some courier) →
      (∀ r ∈ reqs, r.generatedId ≠ some k) →
      logisticsOf (run s reqs) k = some (some courier) := by
  induction reqs with
  | nil => intro s hk _; exact hk
  | cons r rest ih =>
    intro s hk hfresh
    exact ih _ (step_logistics s r k courier hk (hfresh r (List.mem_cons_self _ _)))
      (fun x hx => hfresh x (List.mem_cons_of_mem _ hx))

/-- An assignment answered 200 leaves the caller as the order's logistics actor. -/
theorem assignLogistics_assigned {s : Store} {now : Time} {user : Actor} {id : Id}
    (h : (assignLogistics s now user id).1.code = 200) :
    logisticsOf (assignLogistics s now user id).2 id = some (some user.id) := by
  cases ho : s.orders id with
  | none => simp [assignLogistics, Order.findById, ho] at h
  | some order =>
    obtain ⟨h1, h2, h3⟩ := assignLogistics_cases now user ho
    by_cases hr : order.status = "ready"
    · by_cases hl : order.logisticsId = none
      · rw [h3 hr hl]
        unfold logisticsOf
        rw [updateOrderDoc_self s id _ ho]
        rfl
      · rw [h2 hr hl] at h
        simp at h
    · rw [h1 hr] at h
      simp at h

/-- C13 (as the code has it): after an assignment answered 200, whatever requests
follow (the store generating fresh ids for new orders), the order keeps the courier as
its `logisticsId`, and every further `assignLogistics` on it is answered 400 and leaves
the store as it is: with the already-assigned error while the order's status is ready,
with the not-ready error once it is not. -/
theorem C13_assignment_is_final (s0 : Store) (now0 : Time) (courier : Actor) (id : Id)
    (reqs : List Request)
    (hassign : (assignLogistics s0 now0 courier id).1.code = 200)
    (hfresh : ∀ r ∈ reqs, r.generatedId ≠ some id) :
    ∃ o, (run (assignLogistics s0 now0 courier id).2 reqs).orders id = some o ∧
      o.logisticsId = some courier.id ∧
      ∀ (now : Time) (user : Actor),
        assignLogistics (run (assignLogistics s0 now0 courier id).2 reqs) now user id =
          (⟨400, if o.status = "ready" then .alreadyAssigned else .notReady⟩,
            run (assignLogistics s0 now0 courier id).2 reqs) := by
  have h := run_logistics reqs id courier.id _ (assignLogistics_assigned hassign) hfresh
  cases ho : (run (assignLogistics s0 now0 courier id).2 reqs).orders id with
  | none => simp [logisticsOf, ho] at h
  | some o =>
    have hl : o.logisticsId = some courier.id := by
      simpa [logisticsOf, ho] using h
    refine ⟨o, rfl, hl, ?_⟩
    intro now user
    obtain ⟨h1, h2, _⟩ := assignLogistics_cases now user ho
    by_cases hr : o.status = "ready"
    · rw [h2 hr (by simp [hl]), if_pos hr]
    · rw [h1 hr, if_neg hr]

/-- C13 on the demo order: courier 30 assigns itself and sets the order in delivery;
the order keeps courier 30 and the attempt of courier 31 is answered 400. -/
theorem C13_assignment_is_final_witness :
    logisticsOf (run (assignLogistics (demoStore 47 "ready" none none) 2 ⟨30, "logistics"⟩ 1).2
        [.updateOrderStatus 3 ⟨30, "logistics"⟩ 1 (some "in_delivery")]) 1 = some (some 30) ∧
      (assignLogistics
        (run (assignLogistics (demoStore 47 "ready" none none) 2 ⟨30, "logistics"⟩ 1).2
          [.updateOrderStatus 3 ⟨30, "logistics"⟩ 1 (some "in_delivery")])
        4 ⟨31, "logistics"⟩ 1).1.code = 400 := by
  obtain ⟨o, ho, hl, hall⟩ := C13_assignment_is_final (demoStore 47 "ready" none none) 2
    ⟨30, "logistics"⟩ 1 [.updateOrderStatus 3 ⟨30, "logistics"⟩ 1 (some "in_delivery")]
    (by decide) (by decide)
  refine ⟨?_, ?_⟩
  · simp [logisticsOf, ho, hl]
  · rw [hall 4 ⟨31, "logistics"⟩]

/-- C13, as the claim states it, fails: after courier 30 has assigned itself and set the
order in delivery, the assignment attempt of courier 31 fails with the not-ready error,
not with the already-assigned error. -/
theorem C13_counterexample_second_attempt_not_ready :
    (responses (demoStore 47 "ready" none none) assignThenDeliver).map (fun r => r.code) =
        [200, 200] ∧
      (assignLogistics (run (demoStore 47 "ready" none none) assignThenDeliver) 4
        ⟨31, "logistics"⟩ 1).1 = ⟨400, .notReady⟩ ∧
      (assignLogistics (run (demoStore 47 "ready" none none) assignThenDeliver) 4
        ⟨31, "logistics"⟩ 1).1 ≠ ⟨400, .alreadyAssigned⟩ := by
  refine ⟨by decide, by decide, by decide⟩

/-! ## Cancellation -/

theorem canCancel_iff (user : Actor) (order : Order) :
    canCancel user order = true ↔ CancelAllowed user order := by
  unfold canCancel CancelAllowed
  by_cases hc : user.role = "consumer"
  · by_cases ho : order.consumerId = user.id <;> simp [hc, ho]
  · by_cases hp : user.role = "producer"
    · by_cases ho : order.producerId = user.id <;> simp [hp, ho]
    · simp [hc, hp]

/-- The in-memory result of `Order.cancel` on an order that is not terminal. -/
theorem cancel_of_open (order : Order) (now : Time) (hd : order.status ≠ "delivered")
    (hc : order.status ≠ "cancelled") :
    order.cancel now = .ok { order with status := "cancelled", updatedAt := now } := by
  unfold Order.cancel
  rw [if_neg hd, if_neg hc, updateStatus_of_valid order now (by decide)]
  simp

theorem CancelAllowed.open {user : Actor} {order : Order} (h : CancelAllowed user order) :
    order.status ≠ "delivered" ∧ order.status ≠ "cancelled" := by
  rcases h with ⟨_, _, h | h⟩ | ⟨_, _, h⟩ <;> rw [h] <;> decide

/-- A cancellation the permission test admits: the answer and the store. -/
theorem cancelOrder_allowed {s : Store} {user : Actor} {id : Id} {order : Order} (now : Time)
    (ho : s.orders id = some order) (h : CancelAllowed user order) :
    cancelOrder s now user id =
      (⟨200, .orderCancelled⟩,
        releaseItems
          (s.updateOrderDoc id (fun d =>
            { d with status := "cancelled", updatedAt := now, deliveredAt := order.deliveredAt }))
          now order.items) := by
  have hcc : canCancel user order = true := (canCancel_iff user order).mpr h
  unfold cancelOrder
  simp only [Order.findById, ho, hcc, Bool.true_eq_false, if_false,
    cancel_of_open order now h.open.1 h.open.2]
  rfl

/-- A cancellation the permission test does not admit is answered 403. -/
theorem cancelOrder_refused {s : Store} {user : Actor} {id : Id} {order : Order} (now : Time)
    (ho : s.orders id = some order) (h : ¬ CancelAllowed user order) :
    cancelOrder s now user id = (⟨403, .cannotCancel⟩, s) := by
  have hcc : canCancel user order = false := by
    rw [← Bool.not_eq_true, canCancel_iff]
    exact h
  simp [cancelOrder, Order.findById, ho, hcc]

/-- C14: on a stored order, `cancelOrder` is answered 200 exactly when the caller is the
consumer owning the order and the status is pending or confirmed, or the producer owning
it and the status is pending; the stored status is then cancelled; every other request
is answered 403 and leaves the store, orders and products, as it was. -/
theorem C14_cancel_order_permission (s : Store) (now : Time) (user : Actor) (id : Id)
    (order : Order) (ho : s.orders id = some order) :
    ((cancelOrder s now user id).1.code = 200 ↔ CancelAllowed user order) ∧
      (CancelAllowed user order →
        statusOf (cancelOrder s now user id).2 id = some "cancelled") ∧
      (¬ CancelAllowed user order →
        cancelOrder s now user id = (⟨403, .cannotCancel⟩, s)) := by
  refine ⟨?_, ?_, cancelOrder_refused now ho⟩
  · constructor
    · intro hc
      by_contra hna
      rw [cancelOrder_refused now ho hna] at hc
      simp at hc
    · intro h
      rw [cancelOrder_allowed now ho h]
  · intro h
    rw [cancelOrder_allowed now ho h]
    unfold statusOf
    rw [releaseItems_orders, updateOrderDoc_self s id _ ho]
    rfl

/-- C14 on the demo order: the consumer cancelling the order that is already ready is
answered 403 with the store (and the stock 47) unchanged; cancelling it while pending is
answered 200. -/
theorem C14_cancel_order_permission_witness :
    cancelOrder (demoStore 47 "ready" none none) 9 ⟨20, "consumer"⟩ 1 =
        (⟨403, .cannotCancel⟩, demoStore 47 "ready" none none) ∧
      (cancelOrder (demoStore 47 "pending" none none) 9 ⟨20, "consumer"⟩ 1).1.code = 200 ∧
      statusOf (cancelOrder (demoStore 47 "pending" none none) 9 ⟨20, "consumer"⟩ 1).2 1 =
        some "cancelled" := by
  have hr := C14_cancel_order_permission (demoStore 47 "ready" none none) 9 ⟨20, "consumer"⟩ 1
    (demoOrder "ready" none none) rfl
  have hp := C14_cancel_order_permission (demoStore 47 "pending" none none) 9
    ⟨20, "consumer"⟩ 1 (demoOrder "pending" none none) rfl
  have hna : ¬ CancelAllowed ⟨20, "consumer"⟩ (demoOrder "ready" none none) := by
    simp [CancelAllowed, demoOrder]
  have ha : CancelAllowed ⟨20, "consumer"⟩ (demoOrder "pending" none none) :=
    Or.inl ⟨rfl, rfl, Or.inl rfl⟩
  exact ⟨hr.2.2 hna, hp.1.mpr ha, hp.2.1 ha⟩

/-! ## Stock release through the status request -/

/-- On a stored order, a status request is answered 200 exactly when the permission
switch admits it. -/
theorem updateOrderStatus_served_iff {s : Store} {user : Actor} {id : Id} {order : Order}
    (now : Time) (status : String) (ho : s.orders id = some order) :
    (updateOrderStatus s now user id (some status)).1.code = 200 ↔
      RoleAllows user order status := by
  constructor
  · intro h
    by_contra hna
    have hcu : canUpdate user order status = false := by
      rw [← Bool.not_eq_true, canUpdate_iff]
      exact hna
    unfold updateOrderStatus at h
    by_cases hst : status = ""
    · simp [hst] at h
    · simp [hst, Order.findById, ho, hcu] at h
  · intro hr
    by_cases hc : status = "cancelled"
    · subst hc
      rw [updateOrderStatus_cancelled now ho hr]
    · rw [updateOrderStatus_served now ho hr hc]

/-- A request for a status other than cancelled leaves the products as they are. -/
theorem updateOrderStatus_products (s : Store) (now : Time) (user : Actor) (id : Id)
    (status : Option String) (hnc : status ≠ some "cancelled") :
    (updateOrderStatus s now user id status).2.products = s.products := by
  unfold updateOrderStatus
  cases status with
  | none => rfl
  | some st =>
    have hst : st ≠ "cancelled" := fun h => hnc (by rw [h])
    simp only
    split
    · rfl
    · cases hf : Order.findById s id with
      | none => rfl
      | some order =>
        simp only
        split
        · rfl
        · cases hu : order.updateStatus st now with
          | error e => rfl
          | ok order1 =>
            simp only [if_neg hst]
            rfl

/-- C15 (as the code has it): when `updateOrderStatus` serves a request for cancelled on
a stored order, every existing product's stock rises by exactly the sum of the
quantities of the order's items that reference it (nothing for a product no item
references, that item's quantity when one item references it), and no product appears
or disappears; a request for any other status, whatever its outcome, leaves the products
as they are. -/
theorem C15_release_on_status_cancelled (s : Store) (now : Time) (user : Actor) (id : Id)
    (order : Order) (ho : s.orders id = some order) :
    ((updateOrderStatus s now user id (some "cancelled")).1.code = 200 →
        ∀ pid, stockOf (updateOrderStatus s now user id (some "cancelled")).2 pid =
          (stockOf s pid).map (fun n => n + orderedQty order.items pid)) ∧
      (∀ status, status ≠ some "cancelled" →
        (updateOrderStatus s now user id status).2.products = s.products) := by
  refine ⟨?_, fun status h => updateOrderStatus_products s now user id status h⟩
  intro h pid
  have hr := (updateOrderStatus_served_iff now "cancelled" ho).mp h
  rw [updateOrderStatus_cancelled now ho hr, releaseItems_stock]
  rfl

/-- C15 on the demo order (one item of 3 kg of product 1, stock 47): the consumer's
request for cancelled is served and the stock is 50; the producer's request for
confirmed leaves the stock at 47. -/
theorem C15_release_on_status_cancelled_witness :
    (updateOrderStatus (demoStore 47 "pending" none none) 9 ⟨20, "consumer"⟩ 1
        (some "cancelled")).1.code = 200 ∧
      stockOf (updateOrderStatus (demoStore 47 "pending" none none) 9 ⟨20, "consumer"⟩ 1
        (some "cancelled")).2 1 = some 50 ∧
      stockOf (updateOrderStatus (demoStore 47 "pending" none none) 9 ⟨10, "producer"⟩ 1
        (some "confirmed")).2 1 = some 47 := by
  have h := C15_release_on_status_cancelled (demoStore 47 "pending" none none) 9
    ⟨20, "consumer"⟩ 1 (demoOrder "pending" none none) rfl
  have h2 := C15_release_on_status_cancelled (demoStore 47 "pending" none none) 9
    ⟨10, "producer"⟩ 1 (demoOrder "pending" none none) rfl
  refine ⟨by decide, ?_, ?_⟩
  · rw [h.1 (by decide) 1]
    decide
  · unfold stockOf
    rw [h2.2 (some "confirmed") (by decide)]
    decide

/-- C15, as the claim states it, fails: an order created from two lines of 3 kg of
product 1 (stock 50, then 44) has two items of quantity 3 referencing product 1; when
the consumer's request for cancelled is served the stock rises by 6, to 50, and not by
the quantity 3 of an item. -/
theorem C15_counterexample_two_items_one_product :
    (responses (demoStore 50 "pending" none none) twoLinesFlow).map (fun r => r.code) =
        [201, 200] ∧
      ((run (demoStore 50 "pending" none none) (twoLinesFlow.take 1)).orders 100).map
        (fun o => o.items.map (fun item => (item.productId, item.quantity))) =
        some [(1, 3), (1, 3)] ∧
      stockOf (run (demoStore 50 "pending" none none) (twoLinesFlow.take 1)) 1 = some 44 ∧
      stockOf (run (demoStore 50 "pending" none none) twoLinesFlow) 1 = some 50 ∧
      stockOf (run (demoStore 50 "pending" none none) twoLinesFlow) 1 ≠ some (44 + 3) := by
  refine ⟨by decide, by decide, by decide, by decide, by decide⟩

/-! ## Delivery time and `Order.cancel` -/

/-- C16: when `updateOrderStatus` serves a request on a stored order, `Order.updateStatus`
has returned an order, that order is the one stored, and its `deliveredAt` is the request
time when the requested status is delivered and the former `deliveredAt` for any other
status. -/
theorem C16_delivered_at_stamp (s : Store) (now : Time) (user : Actor) (id : Id)
    (status : String) (order : Order) (ho : s.orders id = some order)
    (hserved : (updateOrderStatus s now user id (some status)).1.code = 200) :
    ∃ order1, order.updateStatus status now = .ok order1 ∧
      (updateOrderStatus s now user id (some status)).2.orders id = some order1 ∧
      (status = "delivered" → order1.deliveredAt = some now) ∧
      (status ≠ "delivered" → order1.deliveredAt = order.deliveredAt) := by
  have hr := (updateOrderStatus_served_iff now status ho).mp hserved
  refine ⟨_, updateStatus_of_valid order now hr.valid.1, ?_, ?_, ?_⟩
  · by_cases hc : status = "cancelled"
    · subst hc
      rw [updateOrderStatus_cancelled now ho hr, releaseItems_orders,
        updateOrderDoc_self s id _ ho]
      rfl
    · rw [updateOrderStatus_served now ho hr hc, updateOrderDoc_self s id _ ho]
  · intro hd
    simp [hd]
  · intro hd
    simp [hd]

/-- C16 on the demo order: the assigned courier's request for delivered at time 9 stamps
`deliveredAt = 9`; its request for in_delivery leaves `deliveredAt` unset. -/
theorem C16_delivered_at_stamp_witness :
    ((updateOrderStatus (demoStore 47 "in_delivery" (some 30) none) 9 ⟨30, "logistics"⟩ 1
        (some "delivered")).2.orders 1).map (fun o => o.deliveredAt) = some (some 9) ∧
      ((updateOrderStatus (demoStore 47 "ready" (some 30) none) 9 ⟨30, "logistics"⟩ 1
        (some "in_delivery")).2.orders 1).map (fun o => o.deliveredAt) = some none := by
  obtain ⟨o1, _, hs1, hd1, _⟩ := C16_delivered_at_stamp
    (demoStore 47 "in_delivery" (some 30) none) 9 ⟨30, "logistics"⟩ 1 "delivered"
    (demoOrder "in_delivery" (some 30) none) rfl (by decide)
  obtain ⟨o2, _, hs2, _, hd2⟩ := C16_delivered_at_stamp
    (demoStore 47 "ready" (some 30) none) 9 ⟨30, "logistics"⟩ 1 "in_delivery"
    (demoOrder "ready" (some 30) none) rfl (by decide)
  rw [hs1, hs2]
  simp only [Option.map_some', hd1 rfl, hd2 (by decide)]
  exact ⟨trivial, rfl⟩

/-- C17: `Order.cancel` throws exactly when the order's status is delivered or
cancelled; it then returns no order, and a `cancelOrder` request in which it throws
leaves the store as it was. Otherwise it returns the order with status cancelled and the
update time set, every other field as before. -/
theorem C17_order_cancel (o : Order) (now : Time) :
    ((∃ e, o.cancel now = .error e) ↔ (o.status = "delivered" ∨ o.status = "cancelled")) ∧
      (¬ (o.status = "delivered" ∨ o.status = "cancelled") →
        o.cancel now = .ok { o with status := "cancelled", updatedAt := now }) ∧
      (∀ (s : Store) (user : Actor) (id : Id) (e : String), s.orders id = some o →
        o.cancel now = .error e → (cancelOrder s now user id).2 = s) := by
  have hopen : ¬ (o.status = "delivered" ∨ o.status = "cancelled") →
      o.cancel now = .ok { o with status := "cancelled", updatedAt := now } := by
    intro h
    exact cancel_of_open o now (fun hd => h (Or.inl hd)) (fun hc => h (Or.inr hc))
  refine ⟨?_, hopen, ?_⟩
  · constructor
    · rintro ⟨e, he⟩
      by_contra h
      rw [hopen h] at he
      cases he
    · rintro (h | h)
      · refine ⟨"Erro ao cancelar pedido: Não é possível cancelar um pedido já entregue", ?_⟩
        simp [Order.cancel, h]
      · refine ⟨"Erro ao cancelar pedido: Pedido já está cancelado", ?_⟩
        unfold Order.cancel
        rw [h]
        rfl
  · intro s user id e ho he
    unfold cancelOrder
    simp only [Order.findById, ho, he]
    split <;> rfl

/-- C17 on the demo order: cancelling while confirmed returns the order with status
cancelled and the new update time; cancelling while delivered throws. -/
theorem C17_order_cancel_witness :
    (demoOrder "confirmed" none none).cancel 9 =
        .ok { demoOrder "confirmed" none none with status := "cancelled", updatedAt := 9 } ∧
      (demoOrder "delivered" (some 30) (some 8)).cancel 9 =
        .error "Erro ao cancelar pedido: Não é possível cancelar um pedido já entregue" := by
  refine ⟨(C17_order_cancel (demoOrder "confirmed" none none) 9).2.1 (by decide), ?_⟩
  rfl

/-! ## Failing inputs of the listing and of `addItem` -/

/-- C18, the code at the failing input: the only product is available with stock 0;
the listing without filter and the listing by category leave it out, the listing with
the search term 'tomate' returns it. -/
theorem C18_search_lists_sold_out_product :
    stockOf soldOutStore 1 = some 0 ∧
      getAvailableProducts soldOutStore [1] none none = [] ∧
      getAvailableProducts soldOutStore [1] (some "Verduras") none = [] ∧
      (getAvailableProducts soldOutStore [1] none (some "tomate")).map
        (fun d => (d.1, d.2.isAvailable, d.2.stock)) = [(1, true, 0)] := by
  refine ⟨by decide, by decide, by decide, by decide⟩

theorem addItem_consistent (o : Order) (productId : Id) (productName : String) (price : ℚ)
    (quantity : Int) (unit : String) :
    TotalConsistent (o.addItem productId productName price quantity unit) := by
  unfold Order.addItem
  split <;> exact calculateTotal_consistent _

/-- C20, the code at the failing input: two `addItem` calls for the same product leave
one item of quantity 5 whose subtotal is still that of the first call, 17.00, while
price × quantity is 42.50; the total is 47.50 and the subtotals plus the fee are 22.00. -/
theorem C20_add_item_keeps_stale_subtotal :
    mergedOrder.items.map (fun item => item.quantity) = [5] ∧
      mergedOrder.items.map (fun item => item.subtotal) = [17] ∧
      mergedOrder.items.map (fun item => item.price * (item.quantity : ℚ)) = [85 / 2] ∧
      mergedOrder.totalAmount = 95 / 2 ∧
      (mergedOrder.items.map (fun item => item.subtotal)).sum + mergedOrder.deliveryFee = 22 := by
  have hitems : mergedOrder.items =
      [{ productId := 1, productName := "Tomate Orgânico", price := 17 / 2, quantity := 2 + 3,
         unit := "kg", subtotal := 17 / 2 * ((2 : Int) : ℚ) }] := by
    rfl
  have htotal : mergedOrder.totalAmount = lineSum mergedOrder.items + mergedOrder.deliveryFee :=
    addItem_consistent _ 1 "Tomate Orgânico" (17 / 2) 3 "kg"
  have hfee : mergedOrder.deliveryFee = 5 := rfl
  refine ⟨?_, ?_, ?_, ?_, ?_⟩
  · rw [hitems]; rfl
  · rw [hitems]; norm_num
  · rw [hitems]; norm_num
  · rw [htotal, hfee, hitems]; norm_num [lineSum]
  · rw [hfee, hitems]; norm_num

/-! ## Order statistics -/

/-- The fold of the statistics callback over orders with statuses of the enumeration:
`total` is untouched, each status counter grows by the number of orders with that
status, the revenue by the totals of the delivered ones. -/
theorem foldl_record (orders : List (Id × Order))
    (hvalid : ∀ d ∈ orders, d.2.status ∈ validStatuses) :
    ∀ st : OrderStats, orders.foldl (fun st d => st.record d.2) st =
      { total := st.total,
        pending := st.pending + statusCount orders "pending",
        confirmed := st.confirmed + statusCount orders "confirmed",
        preparing := st.preparing + statusCount orders "preparing",
        ready := st.ready + statusCount orders "ready",
        in_delivery := st.in_delivery + statusCount orders "in_delivery",
        delivered := st.delivered + statusCount orders "delivered",
        cancelled := st.cancelled + statusCount orders "cancelled",
        totalRevenue := st.totalRevenue + deliveredRevenue orders } := by
  induction orders with
  | nil => intro st; simp [statusCount, deliveredRevenue]
  | cons x rest ih =>
    intro st
    have hx := hvalid x (List.mem_cons_self _ _)
    rw [List.foldl_cons, ih (fun d hd => hvalid d (List.mem_cons_of_mem _ hd))]
    simp only [validStatuses, List.mem_cons, List.mem_singleton, List.not_mem_nil,
      or_false] at hx
    rcases hx with h | h | h | h | h | h | h <;>
      simp [OrderStats.record, OrderStats.increment, statusCount, deliveredRevenue,
        List.countP_cons, List.filter_cons, h] <;>
      first
        | omega
        | exact ⟨by omega, by ring⟩

/-- The seven status counts of orders with statuses of the enumeration add up to the
number of orders. -/
theorem statusCount_sum (orders : List (Id × Order))
    (hvalid : ∀ d ∈ orders, d.2.status ∈ validStatuses) :
    statusCount orders "pending" + statusCount orders "confirmed" +
      statusCount orders "preparing" + statusCount orders "ready" +
      statusCount orders "in_delivery" + statusCount orders "delivered" +
      statusCount orders "cancelled" = orders.length := by
  induction orders with
  | nil => rfl
  | cons x rest ih =>
    have hx := hvalid x (List.mem_cons_self _ _)
    have hrest := ih (fun d hd => hvalid d (List.mem_cons_of_mem _ hd))
    simp only [validStatuses, List.mem_cons, List.mem_singleton, List.not_mem_nil,
      or_false] at hx
    simp only [statusCount, List.countP_cons, List.length_cons] at hrest ⊢
    rcases hx with h | h | h | h | h | h | h <;> simp [h] <;> omega

/-- The orders `getOrderStatistics` folds over are, up to their order, the counted ones. -/
theorem periodOrders_perm (s : Store) (ids : List Id) (now : Time) (producerId : Id) :
    ((Order.findByProducer s ids producerId).filter
      (fun d => decide (now - thirtyDays ≤ d.2.createdAt) && decide (d.2.createdAt ≤ now))).Perm
      (countedOrders s ids now producerId) :=
  (List.perm_insertionSort _ _).filter _

/-- C19: for a producer, `getOrderStatistics` answers 200 with the period of the thirty
days ending at the request time and leaves the store as it is; `total` is the number of
the producer's stored orders created in that period; when these orders carry statuses of
the enumeration, each of the seven status counts is the number of counted orders with
that status, the seven add up to `total`, and `totalRevenue` is the sum of `totalAmount`
over the counted orders with status delivered. -/
theorem C19_statistics_of_producer (s : Store) (ids : List Id) (now : Time) (user : Actor)
    (hrole : user.role = "producer")
    (hvalid : ∀ d ∈ countedOrders s ids now user.id, d.2.status ∈ validStatuses) :
    ∃ stats : OrderStats,
      getOrderStatistics s ids now user =
          (⟨200, some stats, some (now - thirtyDays, now)⟩, s) ∧
        stats.total = (countedOrders s ids now user.id).length ∧
        stats.pending = statusCount (countedOrders s ids now user.id) "pending" ∧
        stats.confirmed = statusCount (countedOrders s ids now user.id) "confirmed" ∧
        stats.preparing = statusCount (countedOrders s ids now user.id) "preparing" ∧
        stats.ready = statusCount (countedOrders s ids now user.id) "ready" ∧
        stats.in_delivery = statusCount (countedOrders s ids now user.id) "in_delivery" ∧
        stats.delivered = statusCount (countedOrders s ids now user.id) "delivered" ∧
        stats.cancelled = statusCount (countedOrders s ids now user.id) "cancelled" ∧
        stats.pending + stats.confirmed + stats.preparing + stats.ready + stats.in_delivery +
          stats.delivered + stats.cancelled = stats.total ∧
        stats.totalRevenue = deliveredRevenue (countedOrders s ids now user.id) := by
  have hperm := periodOrders_perm s ids now user.id
  have hvalid1 : ∀ d ∈ (Order.findByProducer s ids user.id).filter
      (fun d => decide (now - thirtyDays ≤ d.2.createdAt) && decide (d.2.createdAt ≤ now)),
      d.2.status ∈ validStatuses := fun d hd => hvalid d (hperm.mem_iff.mp hd)
  have hcount : ∀ status, statusCount ((Order.findByProducer s ids user.id).filter
      (fun d => decide (now - thirtyDays ≤ d.2.createdAt) && decide (d.2.createdAt ≤ now)))
      status = statusCount (countedOrders s ids now user.id) status :=
    fun status => hperm.countP_eq _
  have hrev : deliveredRevenue ((Order.findByProducer s ids user.id).filter
      (fun d => decide (now - thirtyDays ≤ d.2.createdAt) && decide (d.2.createdAt ≤ now))) =
      deliveredRevenue (countedOrders s ids now user.id) :=
    (((hperm.filter _).map _).sum_eq)
  have hsum := statusCount_sum _ hvalid
  refine ⟨List.foldl (fun st d => st.record d.2)
    { total := ((Order.findByProducer s ids user.id).filter
        (fun d => decide (now - thirtyDays ≤ d.2.createdAt) && decide (d.2.createdAt ≤ now))).length,
      pending := 0, confirmed := 0, preparing := 0, ready := 0, in_delivery := 0,
      delivered := 0, cancelled := 0, totalRevenue := 0 }
    ((Order.findByProducer s ids user.id).filter
      (fun d => decide (now - thirtyDays ≤ d.2.createdAt) && decide (d.2.createdAt ≤ now))),
    ?_, ?_⟩
  · unfold getOrderStatistics
    rw [if_neg (not_not.mpr hrole)]
  · rw [foldl_record _ hvalid1]
    simp only [hcount, hrev, zero_add, hperm.length_eq]
    exact ⟨trivial, trivial, trivial, trivial, trivial, trivial, trivial, trivial, hsum, trivial⟩

/-- C19 on a store with four orders: producer 10 has one delivered and one pending order
in the period, one delivered order before it, and producer 11 one delivered order in it;
the statistics of producer 10 count 2 orders, 1 pending, 1 delivered, revenue 30.50. -/
theorem C19_statistics_of_producer_witness :
    (getOrderStatistics statsStore [1, 2, 3, 4] (thirtyDays + 50) ⟨10, "producer"⟩).2 =
        statsStore ∧
      (getOrderStatistics statsStore [1, 2, 3, 4] (thirtyDays + 50) ⟨10, "producer"⟩).1.code =
        200 ∧
      (countedOrders statsStore [1, 2, 3, 4] (thirtyDays + 50) 10).map (fun d => d.1) = [1, 2] ∧
      ((getOrderStatistics statsStore [1, 2, 3, 4] (thirtyDays + 50)
        ⟨10, "producer"⟩).1.statistics.map
          (fun st => (st.total, st.pending, st.delivered, st.cancelled))) = some (2, 1, 1, 0) ∧
      ((getOrderStatistics statsStore [1, 2, 3, 4] (thirtyDays + 50)
        ⟨10, "producer"⟩).1.statistics.map (fun st => st.totalRevenue)) = some (61 / 2) := by
  have hvalid : ∀ d ∈ countedOrders statsStore [1, 2, 3, 4] (thirtyDays + 50) 10,
      d.2.status ∈ validStatuses := by decide
  obtain ⟨stats, hres, htotal, hpending, _, _, _, _, hdelivered, hcancelled, _, hrev⟩ :=
    C19_statistics_of_producer statsStore [1, 2, 3, 4] (thirtyDays + 50) ⟨10, "producer"⟩ rfl
      hvalid
  rw [hres]
  refine ⟨rfl, rfl, by decide, ?_, ?_⟩
  · simp only [Option.map_some', htotal, hpending, hdelivered, hcancelled]
    decide
  · simp only [Option.map_some', hrev]
    have h : deliveredRevenue (countedOrders statsStore [1, 2, 3, 4] (thirtyDays + 50) 10) =
        61 / 2 + 0 := by
      rfl
    rw [h]
    norm_num

/-! ## Item lines of an order -/

/-- A list with an element satisfying `p` splits at the first such element. -/
theorem split_at_first {α : Type} (p : α → Prop) :
    ∀ l : List α, (∃ x ∈ l, p x) →
      ∃ pre it post, l = pre ++ it :: post ∧ (∀ x ∈ pre, ¬ p x) ∧ p it := by
  intro l
  induction l with
  | nil => rintro ⟨x, hx, _⟩; cases hx
  | cons a rest ih =>
    rintro ⟨x, hx, hp⟩
    by_cases ha : p a
    · exact ⟨[], a, rest, rfl, fun y hy => absurd hy (List.not_mem_nil y), ha⟩
    · have hrest : ∃ y ∈ rest, p y := by
        rcases List.mem_cons.mp hx with rfl | hin
        · exact absurd hp ha
        · exact ⟨x, hin, hp⟩
      obtain ⟨pre, it, post, hl, hpre, hit⟩ := ih hrest
      refine ⟨a :: pre, it, post, by rw [hl]; rfl, ?_, hit⟩
      intro y hy
      rcases List.mem_cons.mp hy with rfl | hin
      · exact ha
      · exact hpre y hin

/-- The index `findIndex` returns for the first item of the product. -/
theorem findIdx_first (pid : Id) (pre : List OrderItem) (it : OrderItem)
    (post : List OrderItem) (hpre : ∀ x ∈ pre, x.productId ≠ pid) (hit : it.productId = pid) :
    (pre ++ it :: post).findIdx? (fun item => item.productId == pid) = some pre.length := by
  have hnone : pre.findIdx? (fun item => item.productId == pid) = none := by
    rw [List.findIdx?_eq_none_iff]
    intro x hx
    simpa using hpre x hx
  rw [List.findIdx?_append, hnone, List.findIdx?_cons]
  simp [hit]

/-- `findIndex` returns -1 when no item is of the product. -/
theorem findIdx_none (pid : Id) (items : List OrderItem)
    (h : ∀ x ∈ items, x.productId ≠ pid) :
    items.findIdx? (fun item => item.productId == pid) = none := by
  rw [List.findIdx?_eq_none_iff]
  intro x hx
  simpa using h x hx

theorem modify_at_length {α : Type} (f : α → α) (pre : List α) (it : α) (post : List α) :
    List.modify f pre.length (pre ++ it :: post) = pre ++ f it :: post := by
  induction pre with
  | nil => rfl
  | cons a pre ih =>
    rw [List.cons_append, List.length_cons, List.modify_succ_cons, ih]
    rfl

/-- C21: when the order has an item of the product, `addItem` adds the quantity to the
first such item and leaves the list otherwise as it is (same length, same order, every
other item and every other field of that item unchanged); when it has none, `addItem`
appends one item with the given fields and subtotal price × quantity at the end. -/
theorem C21_add_item_merges_or_appends (o : Order) (productId : Id) (productName : String)
    (price : ℚ) (quantity : Int) (unit : String) :
    ((∃ x ∈ o.items, x.productId = productId) →
        ∃ pre it post, o.items = pre ++ it :: post ∧ (∀ x ∈ pre, x.productId ≠ productId) ∧
          it.productId = productId ∧
          (o.addItem productId productName price quantity unit).items =
            pre ++ { it with quantity := it.quantity + quantity } :: post ∧
          (o.addItem productId productName price quantity unit).items.length =
            o.items.length) ∧
      ((∀ x ∈ o.items, x.productId ≠ productId) →
        (o.addItem productId productName price quantity unit).items =
          o.items ++ [{ productId := productId, productName := productName, price := price,
                        quantity := quantity, unit := unit,
                        subtotal := price * (quantity : ℚ) }]) := by
  refine ⟨?_, ?_⟩
  · intro h
    obtain ⟨pre, it, post, hl, hpre, hit⟩ :=
      split_at_first (fun x : OrderItem => x.productId = productId) o.items h
    have hitems : (o.addItem productId productName price quantity unit).items =
        pre ++ { it with quantity := it.quantity + quantity } :: post := by
      unfold Order.addItem
      rw [hl, findIdx_first productId pre it post hpre hit]
      simp only [Order.calculateTotal]
      exact modify_at_length _ pre it post
    refine ⟨pre, it, post, hl, hpre, hit, hitems, ?_⟩
    rw [hitems, hl]
    simp
  · intro h
    unfold Order.addItem
    rw [findIdx_none productId o.items h]
    rfl

/-- C21 on the seed order (2 × product 1, 3 × product 2): adding 3 of product 2 leaves
two items, the second with quantity 6; adding 4 of product 3 appends a third item. -/
theorem C21_add_item_merges_or_appends_witness :
    (seedOrder1.addItem 2 "Alface Crespa" 3 3 "unidade").items.length = 2 ∧
      (seedOrder1.addItem 2 "Alface Crespa" 3 3 "unidade").items.map
        (fun item => (item.productId, item.quantity)) = [(1, 2), (2, 6)] ∧
      (seedOrder1.addItem 3 "Cenoura Baby" 6 4 "kg").items =
        seedOrder1.items ++ [{ productId := 3, productName := "Cenoura Baby", price := 6,
                               quantity := 4, unit := "kg", subtotal := 6 * ((4 : Int) : ℚ) }] := by
  have h := C21_add_item_merges_or_appends seedOrder1 2 "Alface Crespa" 3 3 "unidade"
  have h3 := C21_add_item_merges_or_appends seedOrder1 3 "Cenoura Baby" 6 4 "kg"
  have hnone : ∀ x ∈ seedOrder1.items, x.productId ≠ 3 := by decide
  obtain ⟨pre, it, post, _, _, _, _, hlen⟩ := h.1 (by decide)
  exact ⟨hlen.trans rfl, rfl, h3.2 hnone⟩

/-- C22: `updateItemQuantity` throws when no item is of the product (no order is
returned); when an item is of the product and the new quantity is not positive it returns
the result of `removeItem`; when the new quantity is positive it returns the order in
which the first item of the product has the new quantity and subtotal price × quantity,
every other item is as before, and `totalAmount` is recomputed as the sum of price ×
quantity plus the delivery fee. -/
theorem C22_update_item_quantity (o : Order) (productId : Id) (newQuantity : Int) :
    ((∀ x ∈ o.items, x.productId ≠ productId) →
        o.updateItemQuantity productId newQuantity =
          .error "Erro ao atualizar quantidade: Item não encontrado no pedido") ∧
      ((∃ x ∈ o.items, x.productId = productId) → newQuantity ≤ 0 →
        o.updateItemQuantity productId newQuantity = .ok (o.removeItem productId)) ∧
      ((∃ x ∈ o.items, x.productId = productId) → 0 < newQuantity →
        ∃ pre it post o1, o.items = pre ++ it :: post ∧
          (∀ x ∈ pre, x.productId ≠ productId) ∧ it.productId = productId ∧
          o.updateItemQuantity productId newQuantity = .ok o1 ∧
          o1.items = pre ++ { it with quantity := newQuantity,
                                      subtotal := it.price * (newQuantity : ℚ) } :: post ∧
          o1.deliveryFee = o.deliveryFee ∧
          o1.totalAmount = lineSum o1.items + o1.deliveryFee) := by
  refine ⟨?_, ?_, ?_⟩
  · intro h
    unfold Order.updateItemQuantity
    rw [findIdx_none productId o.items h]
  · intro h hn
    obtain ⟨pre, it, post, hl, hpre, hit⟩ :=
      split_at_first (fun x : OrderItem => x.productId = productId) o.items h
    unfold Order.updateItemQuantity
    rw [hl, findIdx_first productId pre it post hpre hit]
    simp only [if_pos hn]
  · intro h hn
    obtain ⟨pre, it, post, hl, hpre, hit⟩ :=
      split_at_first (fun x : OrderItem => x.productId = productId) o.items h
    refine ⟨pre, it, post,
      Order.calculateTotal
        { o with items := pre ++ { it with quantity := newQuantity,
                                           subtotal := it.price * (newQuantity : ℚ) } :: post },
      hl, hpre, hit, ?_, rfl, rfl, calculateTotal_consistent _⟩
    unfold Order.updateItemQuantity
    rw [hl, findIdx_first productId pre it post hpre hit]
    simp only [if_neg (not_le.mpr hn)]
    rw [modify_at_length]

/-- C22 on the seed order: quantity 0 for product 2 gives the result of `removeItem`,
product 3 is not in the order, and quantity 5 for product 2 succeeds. -/
theorem C22_update_item_quantity_witness :
    seedOrder1.updateItemQuantity 2 0 = .ok (seedOrder1.removeItem 2) ∧
      seedOrder1.updateItemQuantity 3 5 =
        .error "Erro ao atualizar quantidade: Item não encontrado no pedido" ∧
      (match seedOrder1.updateItemQuantity 2 5 with
        | .ok o1 => o1.items.map (fun item => (item.productId, item.quantity))
        | .error _ => []) = [(1, 2), (2, 5)] := by
  have h := C22_update_item_quantity seedOrder1 2 0
  have h3 := C22_update_item_quantity seedOrder1 3 5
  exact ⟨h.2.1 (by decide) (by decide), h3.1 (by decide), rfl⟩

/-! ## Product edits and order lookup -/

theorem toggleAvailability_orders (s : Store) (now : Time) (user : Actor) (id : Id) :
    (toggleAvailability s now user id).2.orders = s.orders := by
  unfold toggleAvailability
  cases hf : Product.findById s id with
  | none => rfl
  | some product =>
    simp only
    split <;> rfl

theorem deleteProduct_orders (s : Store) (user : Actor) (id : Id) :
    (deleteProduct s user id).2.orders = s.orders := by
  unfold deleteProduct
  cases hf : Product.findById s id with
  | none => rfl
  | some product =>
    simp only
    split <;> rfl

/-- C23: `updateProduct`, `updateStock`, `toggleAvailability` and `deleteProduct`,
whatever their outcome, leave every stored order as it is, so the items of an order
(product name, price, unit, quantity, subtotal) and its `totalAmount` stay those captured
at creation. -/
theorem C23_product_edits_leave_orders (s : Store) (now : Time) (user : Actor) (id : Id)
    (body : ProductBody) (stock : Option Int) (orderId : Id) :
    (updateProduct s now user id body).2.orders orderId = s.orders orderId ∧
      (updateStock s now user id stock).2.orders orderId = s.orders orderId ∧
      (toggleAvailability s now user id).2.orders orderId = s.orders orderId ∧
      (deleteProduct s user id).2.orders orderId = s.orders orderId := by
  rw [updateProduct_orders, updateStock_orders, toggleAvailability_orders, deleteProduct_orders]
  exact ⟨rfl, rfl, rfl, rfl⟩

/-- C24: on a stored order, `getOrderById` answers 200 with the order exactly when the
caller's id is the order's `consumerId`, `producerId` or `logisticsId`, and answers 403
without the order to every other caller. -/
theorem C24_order_lookup_access (s : Store) (user : Actor) (id : Id) (order : Order)
    (ho : s.orders id = some order) :
    ((getOrderById s user id).order = some order ↔ IsPartyId user order) ∧
      (IsPartyId user order → getOrderById s user id = ⟨200, none, some order⟩) ∧
      (¬ IsPartyId user order →
        getOrderById s user id = ⟨403, some .orderAccessDenied, none⟩) := by
  have hyes : IsPartyId user order → getOrderById s user id = ⟨200, none, some order⟩ := by
    intro h
    unfold IsPartyId at h
    unfold getOrderById
    simp only [Order.findById, ho]
    rw [if_neg]
    simp only [Bool.or_eq_false_iff, decide_eq_false_iff_not, not_and, not_not]
    tauto
  have hno : ¬ IsPartyId user order →
      getOrderById s user id = ⟨403, some .orderAccessDenied, none⟩ := by
    intro h
    unfold IsPartyId at h
    unfold getOrderById
    simp only [Order.findById, ho]
    rw [if_pos]
    simp only [Bool.or_eq_false_iff, decide_eq_false_iff_not]
    tauto
  refine ⟨?_, hyes, hno⟩
  constructor
  · intro h
    by_contra hn
    rw [hno hn] at h
    cases h
  · intro h
    rw [hyes h]

/-- C24 on the demo order (consumer 20, producer 10, courier 30): the producer gets the
order, user 99 gets 403. -/
theorem C24_order_lookup_access_witness :
    getOrderById (demoStore 47 "ready" (some 30) none) ⟨10, "producer"⟩ 1 =
        ⟨200, none, some (demoOrder "ready" (some 30) none)⟩ ∧
      getOrderById (demoStore 47 "ready" (some 30) none) ⟨99, "consumer"⟩ 1 =
        ⟨403, some .orderAccessDenied, none⟩ := by
  have h := C24_order_lookup_access (demoStore 47 "ready" (some 30) none) ⟨10, "producer"⟩ 1
    (demoOrder "ready" (some 30) none) rfl
  have h99 := C24_order_lookup_access (demoStore 47 "ready" (some 30) none) ⟨99, "consumer"⟩ 1
    (demoOrder "ready" (some 30) none) rfl
  refine ⟨h.2.1 (Or.inr (Or.inl rfl)), h99.2.2 ?_⟩
  simp [IsPartyId, demoOrder]

/-! ## Ownership mismatch, outsiders, and the two cancellation paths -/

/-- C25 (as the code has it): on a valid request whose lines before `line` all pass the
checks, a line whose product exists, is available and has enough stock but belongs to
another producer than the target one makes `createOrder` answer 400 with the message
that the product does not belong to the selected producer, the store staying as it is. -/
theorem C25_other_producer_answered_400 (s : Store) (now : Time) (newId : Id) (user : Actor)
    (body : OrderBody) (producer : Id) (pre : List ItemInput) (line : ItemInput)
    (post : List ItemInput) (pid : Id) (q : Int) (p : Product)
    (hvalid : (validateOrderData (orderDataOf user body)).isValid = true)
    (hproducer : body.producerId = some producer)
    (hlines : body.items = some (pre ++ line :: post))
    (hpre : ∀ l ∈ pre, LinePasses s producer l)
    (hpid : line.productId = some pid) (hq : line.quantity = some q)
    (hp : s.products pid = some p) (ha : p.isAvailable = true) (hs : q ≤ p.stock)
    (ho : p.producerId ≠ producer) :
    createOrder s now newId user body = (⟨400, .wrongProducer p.name⟩, s) := by
  have hfail : ¬ LinePasses s producer line := by
    rintro ⟨pid1, q1, p1, hpid1, _, hp1, _, _, ho1⟩
    rw [hpid] at hpid1
    cases hpid1
    rw [hp] at hp1
    cases hp1
    exact ho ho1
  have hc := checkItems_error_after s producer (line :: post) _
    (checkItems_cons_fail post hpid hq hfail) pre hpre
  rw [createOrder_of_valid hvalid hproducer hlines, hc]
  simp [hp, ha, not_lt.mpr hs]

/-- C25 on the seed store: the request to producer 11 for product 1 of producer 10 is
answered 400. -/
theorem C25_other_producer_answered_400_witness :
    createOrder seedStore 9 100 ⟨20, "consumer"⟩ otherProducerBody =
      (⟨400, .wrongProducer "Tomate Orgânico"⟩, seedStore) :=
  C25_other_producer_answered_400 seedStore 9 100 ⟨20, "consumer"⟩ otherProducerBody 11 []
    { productId := some 1, quantity := some 2, price := some 9 } [] 1 2 prodA (by decide) rfl rfl
    (fun _ h => absurd h (List.not_mem_nil _)) rfl rfl rfl rfl (by decide) (by decide)

/-- C25, as the claim states it, fails: product 1 exists, is available, has stock 50 for
the 2 asked and belongs to producer 10, the request targets producer 11, and the answer
has status 400, not 403. -/
theorem C25_counterexample_status_400 :
    (createOrder seedStore 9 100 ⟨20, "consumer"⟩ otherProducerBody).1.msg =
        .wrongProducer "Tomate Orgânico" ∧
      (createOrder seedStore 9 100 ⟨20, "consumer"⟩ otherProducerBody).1.code = 400 ∧
      (createOrder seedStore 9 100 ⟨20, "consumer"⟩ otherProducerBody).1.code ≠ 403 := by
  refine ⟨by decide, by decide, by decide⟩

/-- A status request the permission switch does not admit, on a stored order, is
answered 403. -/
theorem updateOrderStatus_refused {s : Store} {user : Actor} {id : Id} {order : Order}
    {status : String} (now : Time) (ho : s.orders id = some order) (hst : status ≠ "")
    (h : ¬ RoleAllows user order status) :
    updateOrderStatus s now user id (some status) = (⟨403, .statusForbidden⟩, s) := by
  have hcu : canUpdate user order status = false := by
    rw [← Bool.not_eq_true, canUpdate_iff]
    exact h
  simp [updateOrderStatus, hst, Order.findById, ho, hcu]

/-- C29: a caller whose id is none of the order's `consumerId`, `producerId` and
`logisticsId` gets 403 for every status it requests through `updateOrderStatus` and for
`cancelOrder`, whatever its role, and the store (the order, every product) stays as it
is. -/
theorem C29_outsider_rejected (s : Store) (now : Time) (user : Actor) (id : Id)
    (order : Order) (status : String) (ho : s.orders id = some order)
    (hstatus : status ≠ "")
    (hc : order.consumerId ≠ user.id) (hp : order.producerId ≠ user.id)
    (hl : order.logisticsId ≠ some user.id) :
    updateOrderStatus s now user id (some status) = (⟨403, .statusForbidden⟩, s) ∧
      cancelOrder s now user id = (⟨403, .cannotCancel⟩, s) := by
  refine ⟨updateOrderStatus_refused now ho hstatus ?_, cancelOrder_refused now ho ?_⟩
  · rintro (⟨_, h, _⟩ | ⟨_, h, _⟩ | ⟨_, h, _⟩)
    · exact hp h
    · exact hl h
    · exact hc h
  · rintro (⟨_, h, _⟩ | ⟨_, h, _⟩)
    · exact hc h
    · exact hp h

/-- C29 on the demo order (consumer 20, producer 10, courier 30): user 99 with the role
producer asking for ready, and cancelling, is answered 403 with the store unchanged. -/
theorem C29_outsider_rejected_witness :
    updateOrderStatus (demoStore 47 "preparing" (some 30) none) 9 ⟨99, "producer"⟩ 1
        (some "ready") = (⟨403, .statusForbidden⟩, demoStore 47 "preparing" (some 30) none) ∧
      cancelOrder (demoStore 47 "preparing" (some 30) none) 9 ⟨99, "producer"⟩ 1 =
        (⟨403, .cannotCancel⟩, demoStore 47 "preparing" (some 30) none) :=
  C29_outsider_rejected (demoStore 47 "preparing" (some 30) none) 9 ⟨99, "producer"⟩ 1
    (demoOrder "preparing" (some 30) none) "ready" rfl (by decide) (by decide) (by decide)
    (by decide)

/-- C30: for a pending order and the consumer owning it, the request for cancelled
through `updateOrderStatus` and the request through `cancelOrder` are both answered 200;
each stores the order with status cancelled and its update time, every other field
(`logisticsId`, items, `deliveredAt`, ...) as before, and both leave the same stock for
every product; served at the same time they leave the same store. -/
theorem C30_two_cancellation_paths_agree (s : Store) (now1 now2 : Time) (user : Actor)
    (id : Id) (order : Order) (ho : s.orders id = some order)
    (hpending : order.status = "pending") (hrole : user.role = "consumer")
    (hown : order.consumerId = user.id) :
    (updateOrderStatus s now1 user id (some "cancelled")).1.code = 200 ∧
      (cancelOrder s now2 user id).1.code = 200 ∧
      (updateOrderStatus s now1 user id (some "cancelled")).2.orders id =
        some { order with status := "cancelled", updatedAt := now1 } ∧
      (cancelOrder s now2 user id).2.orders id =
        some { order with status := "cancelled", updatedAt := now2 } ∧
      (∀ pid, stockOf (updateOrderStatus s now1 user id (some "cancelled")).2 pid =
        stockOf (cancelOrder s now2 user id).2 pid) ∧
      (updateOrderStatus s now1 user id (some "cancelled")).2 = (cancelOrder s now1 user id).2 := by
  have hr : RoleAllows user order "cancelled" := Or.inr (Or.inr ⟨hrole, hown, rfl, hpending⟩)
  have hcan : CancelAllowed user order := Or.inl ⟨hrole, hown, Or.inl hpending⟩
  rw [updateOrderStatus_cancelled now1 ho hr, cancelOrder_allowed now2 ho hcan,
    cancelOrder_allowed now1 ho hcan]
  refine ⟨rfl, rfl, ?_, ?_, ?_, rfl⟩
  · rw [releaseItems_orders, updateOrderDoc_self s id _ ho]
  · rw [releaseItems_orders, updateOrderDoc_self s id _ ho]
  · intro pid
    rw [releaseItems_stock, releaseItems_stock]
    rfl

/-- C30 on the demo order (3 kg of product 1, stock 47): both paths are answered 200,
store the cancelled order and leave the stock at 50. -/
theorem C30_two_cancellation_paths_agree_witness :
    (updateOrderStatus (demoStore 47 "pending" none none) 9 ⟨20, "consumer"⟩ 1
        (some "cancelled")).1.code = 200 ∧
      (cancelOrder (demoStore 47 "pending" none none) 9 ⟨20, "consumer"⟩ 1).1.code = 200 ∧
      stockOf (updateOrderStatus (demoStore 47 "pending" none none) 9 ⟨20, "consumer"⟩ 1
        (some "cancelled")).2 1 = some 50 ∧
      stockOf (cancelOrder (demoStore 47 "pending" none none) 9 ⟨20, "consumer"⟩ 1).2 1 =
        some 50 := by
  have h := C30_two_cancellation_paths_agree (demoStore 47 "pending" none none) 9 9
    ⟨20, "consumer"⟩ 1 (demoOrder "pending" none none) rfl rfl rfl rfl
  refine ⟨h.1, h.2.1, by decide, ?_⟩
  rw [← h.2.2.2.2.1 1]
  decide

/-! ## Conservation of stock and the courier of delivered orders -/

/-- C27, the code at the failing input: from the seed store, whose product 1 has stock
50 and which has no order, the stock of product 1 plus the quantity held by non-cancelled
orders is 50 after the creation of the order (48 + 2) and after its cancellation
(50 + 0); when the producer sets the cancelled order to confirmed it is 52 (50 + 2). -/
theorem C27_reopened_order_breaks_conservation :
    stockPlusReserved seedStore [100] 1 = some 50 ∧
      (responses seedStore createCancelReopen).map (fun r => r.code) = [201, 200, 200] ∧
      stockPlusReserved (run seedStore (createCancelReopen.take 1)) [100] 1 = some 50 ∧
      stockPlusReserved (run seedStore (createCancelReopen.take 2)) [100] 1 = some 50 ∧
      stockOf (run seedStore createCancelReopen) 1 = some 50 ∧
      reservedQty (run seedStore createCancelReopen) [100] 1 = 2 ∧
      stockPlusReserved (run seedStore createCancelReopen) [100] 1 = some 52 := by
  refine ⟨by decide, by decide, by decide, by decide, by decide, by decide, by decide⟩

/-- The store a status request leaves: the one it found, or the one in which the
admitted status was written into the order (the release loop not touching orders). -/
theorem updateOrderStatus_orders (s : Store) (now : Time) (user : Actor) (id : Id)
    (status : Option String) :
    (updateOrderStatus s now user id status).2 = s ∨
      ∃ order st, status = some st ∧ s.orders id = some order ∧ RoleAllows user order st ∧
        (updateOrderStatus s now user id status).2.orders =
          (s.updateOrderDoc id (fun d =>
            { d with
              status := st, updatedAt := now,
              deliveredAt := if st = "delivered" then some now else order.deliveredAt })).orders := by
  cases status with
  | none => left; rfl
  | some st =>
    by_cases hst : st = ""
    · left; simp [updateOrderStatus, hst]
    · cases ho : s.orders id with
      | none => left; simp [updateOrderStatus, hst, Order.findById, ho]
      | some order =>
        by_cases hr : RoleAllows user order st
        · right
          refine ⟨order, st, rfl, rfl, hr, ?_⟩
          by_cases hc : st = "cancelled"
          · subst hc
            rw [updateOrderStatus_cancelled now ho hr, releaseItems_orders]
            rfl
          · rw [updateOrderStatus_served now ho hr hc]
        · left
          rw [updateOrderStatus_refused now ho hst hr]

/-- The store a cancellation leaves: the one it found, or the one in which the status
cancelled was written into the order. -/
theorem cancelOrder_orders (s : Store) (now : Time) (user : Actor) (id : Id) :
    (cancelOrder s now user id).2 = s ∨
      ∃ order, s.orders id = some order ∧
        (cancelOrder s now user id).2.orders =
          (s.updateOrderDoc id (fun d =>
            { d with status := "cancelled", updatedAt := now,
                     deliveredAt := order.deliveredAt })).orders := by
  cases ho : s.orders id with
  | none => left; simp [cancelOrder, Order.findById, ho]
  | some order =>
    by_cases hc : CancelAllowed user order
    · right
      refine ⟨order, rfl, ?_⟩
      rw [cancelOrder_allowed now ho hc, releaseItems_orders]
    · left
      rw [cancelOrder_refused now ho hc]

theorem DeliveryHasCourier.of_orders {s s1 : Store} (h : DeliveryHasCourier s)
    (horders : s1.orders = s.orders) : DeliveryHasCourier s1 := by
  intro id o ho
  rw [horders] at ho
  exact h id o ho

/-- Writing into one order a status and fields under which the property holds keeps it. -/
theorem DeliveryHasCourier.after_order_write {s : Store} (h : DeliveryHasCourier s) (id : Id)
    (m : Order → Order)
    (hm : ∀ o, s.orders id = some o → (m o).status = "in_delivery" ∨ (m o).status = "delivered" →
      ∃ courier, (m o).logisticsId = some courier) :
    DeliveryHasCourier (s.updateOrderDoc id m) := by
  intro k o ho hstatus
  rw [updateOrderDoc_orders] at ho
  split at ho
  · next hk =>
    subst hk
    cases hs : s.orders k with
    | none => simp [hs] at ho
    | some o0 =>
      simp only [hs, Option.map_some', Option.some.injEq] at ho
      subst ho
      exact hm o0 hs hstatus
  · exact h k o ho hstatus

theorem updateOrderStatus_courier (s : Store) (now : Time) (user : Actor) (id : Id)
    (status : Option String) (h : DeliveryHasCourier s) :
    DeliveryHasCourier (updateOrderStatus s now user id status).2 := by
  rcases updateOrderStatus_orders s now user id status with hs | ⟨order, st, _, ho, hr, hs⟩
  · rw [hs]; exact h
  · refine DeliveryHasCourier.of_orders (h.after_order_write id _ ?_) hs
    intro o ho1 hstatus
    rw [ho] at ho1
    cases ho1
    simp only at hstatus ⊢
    rcases hr with ⟨_, _, h1 | h1 | h1⟩ | ⟨_, hl, _⟩ | ⟨_, _, h1, _⟩
    · subst h1; exact absurd hstatus (by decide)
    · subst h1; exact absurd hstatus (by decide)
    · subst h1; exact absurd hstatus (by decide)
    · exact ⟨user.id, hl⟩
    · subst h1; exact absurd hstatus (by decide)

theorem cancelOrder_courier (s : Store) (now : Time) (user : Actor) (id : Id)
    (h : DeliveryHasCourier s) : DeliveryHasCourier (cancelOrder s now user id).2 := by
  rcases cancelOrder_orders s now user id with hs | ⟨order, _, hs⟩
  · rw [hs]; exact h
  · refine DeliveryHasCourier.of_orders (h.after_order_write id _ ?_) hs
    intro o _ hstatus
    simp only at hstatus
    exact absurd hstatus (by decide)

theorem assignLogistics_courier (s : Store) (now : Time) (user : Actor) (id : Id)
    (h : DeliveryHasCourier s) : DeliveryHasCourier (assignLogistics s now user id).2 := by
  cases ho : s.orders id with
  | none =>
    have hs : assignLogistics s now user id = (⟨404, .orderNotFound⟩, s) := by
      simp [assignLogistics, Order.findById, ho]
    rw [hs]; exact h
  | some order =>
    obtain ⟨h1, h2, h3⟩ := assignLogistics_cases now user ho
    by_cases hr : order.status = "ready"
    · by_cases hl : order.logisticsId = none
      · rw [h3 hr hl]
        exact h.after_order_write id _ (fun _ _ _ => ⟨user.id, rfl⟩)
      · rw [h2 hr hl]; exact h
    · rw [h1 hr]; exact h

theorem createOrder_courier (s : Store) (now : Time) (newId : Id) (user : Actor)
    (body : OrderBody) (h : DeliveryHasCourier s) :
    DeliveryHasCourier (createOrder s now newId user body).2 := by
  rcases createOrder_store s now newId user body with hs | ⟨producer, lines, processed, _, _,
    _, _, hs⟩
  · rw [hs]; exact h
  · rw [hs]
    intro id o ho hstatus
    rw [reserveItems_orders, addOrderDoc_orders] at ho
    split at ho
    · simp only [Option.some.injEq] at ho
      subst ho
      simp only [newOrder] at hstatus
      exact absurd hstatus (by decide)
    · exact h id o ho hstatus

theorem step_courier (s : Store) (r : Request) (h : DeliveryHasCourier s) :
    DeliveryHasCourier (step s r).2 := by
  cases r with
  | createOrder now newId user body => exact createOrder_courier s now newId user body h
  | updateOrderStatus now user id status => exact updateOrderStatus_courier s now user id status h
  | cancelOrder now user id => exact cancelOrder_courier s now user id h
  | assignLogistics now user id => exact assignLogistics_courier s now user id h
  | updateStock now user id stock =>
    exact h.of_orders (updateStock_orders s now user id stock)
  | updateProduct now user id body =>
    exact h.of_orders (updateProduct_orders s now user id body)

theorem run_courier (reqs : List Request) :
    ∀ s : Store, DeliveryHasCourier s → DeliveryHasCourier (run s reqs) := by
  induction reqs with
  | nil => intro s h; exact h
  | cons r rest ih => intro s h; exact ih _ (step_courier s r h)

/-- C28: from a store with no orders, after any sequence of createOrder,
updateOrderStatus, cancelOrder and assignLogistics requests (and of producer stock and
product edits), every stored order whose status is in_delivery or delivered has a
logistics actor. -/
theorem C28_delivery_has_courier (s : Store) (reqs : List Request)
    (hempty : ∀ id, s.orders id = none) :
    ∀ id o, (run s reqs).orders id = some o →
      (o.status = "in_delivery" ∨ o.status = "delivered") →
      ∃ courier, o.logisticsId = some courier := by
  have h0 : DeliveryHasCourier s := by
    intro id o ho
    rw [hempty id] at ho
    cases ho
  exact run_courier reqs s h0

/-- C28 on the seed store: the order is created and delivered by courier 30; it ends
with status delivered and courier 30 as its logistics actor. -/
theorem C28_delivery_has_courier_witness :
    statusOf (run seedStore createAndDeliver) 100 = some "delivered" ∧
      logisticsOf (run seedStore createAndDeliver) 100 = some (some 30) ∧
      ∀ o, (run seedStore createAndDeliver).orders 100 = some o →
        (o.status = "in_delivery" ∨ o.status = "delivered") →
        ∃ courier, o.logisticsId = some courier :=
  ⟨by decide, by decide,
    C28_delivery_has_courier seedStore createAndDeliver (fun _ => rfl) 100⟩

/-! ## The stock field as received -/

/-- On an integer number or an absent field the controller on the received value is the
typed controller. -/
theorem updateStockRaw_number (s : Store) (now : Time) (user : Actor) (id : Id)
    (stock : Option Int) :
    updateStockRaw s now user id (stock.map JsValue.number) =
      some (updateStock s now user id stock) := by
  unfold updateStockRaw updateStock
  cases stock with
  | none => rfl
  | some n =>
    simp only [Option.map_some', JsValue.ltZero, JsValue.parseInt, decide_eq_true_eq]
    split
    · rfl
    · cases Product.findById s id with
      | none => rfl
      | some product =>
        simp only
        split <;> rfl

/-- C4, the code at the failing input: product 1 has stock 50 and every stock of the store
is non-negative; the owning producer sends `PUT /products/1/stock` with the body
`{"stock": "-5abc"}`. The guard compares the string itself with 0, which is false
(the string is no number), and the controller writes `parseInt("-5abc")`, which is -5:
the request is answered 200 with `newStock` -5 and the stock of product 1 is -5. -/
theorem C4_unparsed_stock_stored_negative :
    StockNonneg (demoStore 50 "pending" none none) ∧
      stockOf (demoStore 50 "pending" none none) 1 = some 50 ∧
      (JsValue.text "-5abc").ltZero = false ∧
      (JsValue.text "-5abc").parseInt = some (-5) ∧
      ∃ r, updateStockRaw (demoStore 50 "pending" none none) 9 ⟨10, "producer"⟩ 1
            (some (.text "-5abc")) = some r ∧
        r.1 = ⟨200, .stockUpdated 1 (-5)⟩ ∧ stockOf r.2 1 = some (-5) ∧ ¬ StockNonneg r.2 := by
  have h1 : StockNonneg (demoStore 50 "pending" none none) := by
    intro id p h
    simp only [demoStore] at h
    split at h
    · cases h; decide
    · cases h
  refine ⟨h1, by decide, by decide, by decide,
    (⟨200, .stockUpdated 1 (-5)⟩,
      (demoStore 50 "pending" none none).updateProductDoc 1
        (fun d => { d with stock := -5, updatedAt := 9 })), rfl, rfl, by decide, ?_⟩
  intro h
  exact absurd (h 1 { prodA with stock := -5, updatedAt := 9 } rfl) (by decide)

end Cria
